import Mathlib

/-!
Verification development for the Google-Ads-Simulator backend
(`gads-sim-backend/app`): a shallow embedding in Lean 4 of the deterministic
auction simulation and configuration-keyed caching subsystem, together with
proofs about it.

Conventions of the embedding:
* Python `float` arithmetic is modelled over `ℚ` (the computations under
  study are short chains of exact decimal constants, products and divisions,
  so rational arithmetic tracks the source faithfully; no claim below hinges
  on binary floating-point rounding).
* Python `int` is `ℤ`; `round(x, n)` is banker's rounding (`pyRoundInt`),
  `int(x)` is truncation toward zero (`pyInt`).
* Python dicts that the code mutates are modelled as association lists with
  explicit state passing; dict reads with `.get(k, d)` become `Option.getD`.
* Strings are processed on their character lists so that every operation is
  a total computable function.
-/

namespace GAdsSim

/-! ### Python numeric primitives -/

/-- Python 3 `round(q)` to an integer: round half to even (banker's rounding). -/
def pyRoundInt (q : ℚ) : ℤ :=
  let n := ⌊q⌋
  let f := q - n
  if f < 1/2 then n
  else if 1/2 < f then n + 1
  else if Even n then n else n + 1

/-- Python `round(q, 2)` (two decimal places). -/
def round2 (q : ℚ) : ℚ := (pyRoundInt (q * 100) : ℚ) / 100

/-- Python `round(q, 1)` (one decimal place). -/
def round1 (q : ℚ) : ℚ := (pyRoundInt (q * 10) : ℚ) / 10

/-- Python `round(q, 4)` (four decimal places). -/
def round4 (q : ℚ) : ℚ := (pyRoundInt (q * 10000) : ℚ) / 10000

/-- Python `int(q)`: truncation toward zero. -/
def pyInt (q : ℚ) : ℤ := if q < 0 then -⌊-q⌋ else ⌊q⌋

theorem floor_le_pyRoundInt (q : ℚ) : ⌊q⌋ ≤ pyRoundInt q := by
  unfold pyRoundInt
  dsimp only
  split_ifs <;> omega

theorem pyRoundInt_le_floor_add_one (q : ℚ) : pyRoundInt q ≤ ⌊q⌋ + 1 := by
  unfold pyRoundInt
  dsimp only
  split_ifs <;> omega

theorem pyRoundInt_intCast (n : ℤ) : pyRoundInt (n : ℚ) = n := by
  unfold pyRoundInt
  dsimp only
  rw [Int.floor_intCast]
  have h : (n : ℚ) - n = 0 := by ring
  rw [h]
  norm_num

theorem pyRoundInt_mono {q r : ℚ} (h : q ≤ r) : pyRoundInt q ≤ pyRoundInt r := by
  rcases lt_or_eq_of_le (Int.floor_mono h) with hlt | heq
  · calc pyRoundInt q ≤ ⌊q⌋ + 1 := pyRoundInt_le_floor_add_one q
      _ ≤ ⌊r⌋ := by omega
      _ ≤ pyRoundInt r := floor_le_pyRoundInt r
  · unfold pyRoundInt
    dsimp only
    rw [heq]
    have hfr : q - (⌊r⌋ : ℚ) ≤ r - (⌊r⌋ : ℚ) := by linarith
    split_ifs with h1 h2 h3 h4 h5 h6 h7 <;> first
      | omega
      | (exfalso; linarith)

/-- Banker's rounding never exceeds the value by more than one half. -/
theorem pyRoundInt_le_add_half (q : ℚ) : (pyRoundInt q : ℚ) ≤ q + 1/2 := by
  have hfl : (⌊q⌋ : ℚ) ≤ q := Int.floor_le q
  unfold pyRoundInt
  dsimp only
  split_ifs with h1 h2 h3 <;> push_cast <;> linarith

theorem round2_mono {q r : ℚ} (h : q ≤ r) : round2 q ≤ round2 r := by
  unfold round2
  have hm : pyRoundInt (q * 100) ≤ pyRoundInt (r * 100) :=
    pyRoundInt_mono (by linarith)
  have : (pyRoundInt (q * 100) : ℚ) ≤ (pyRoundInt (r * 100) : ℚ) := by
    exact_mod_cast hm
  linarith

/-- Rounding to cents overshoots by at most half a cent. -/
theorem round2_le_add_half_cent (q : ℚ) : round2 q ≤ q + 1/200 := by
  unfold round2
  have h := pyRoundInt_le_add_half (q * 100)
  linarith

theorem one_le_pyRoundInt {q : ℚ} (h : 1 ≤ q) : 1 ≤ pyRoundInt q := by
  have := pyRoundInt_mono (show ((1 : ℤ) : ℚ) ≤ q by exact_mod_cast h)
  rw [pyRoundInt_intCast] at this
  exact this

theorem pyRoundInt_le_ten {q : ℚ} (h : q ≤ 10) : pyRoundInt q ≤ 10 := by
  have := pyRoundInt_mono (show q ≤ ((10 : ℤ) : ℚ) by exact_mod_cast h)
  rw [pyRoundInt_intCast] at this
  exact this

theorem pyInt_le_of_le {q : ℚ} {m : ℤ} (hm : 0 ≤ m) (h : q ≤ (m : ℚ)) :
    pyInt q ≤ m := by
  unfold pyInt
  split_ifs with hneg
  · have : 0 ≤ ⌊-q⌋ := by
      rw [Int.floor_nonneg]
      linarith
    omega
  · have : ⌊q⌋ ≤ ⌊(m : ℚ)⌋ := Int.floor_mono h
    rw [Int.floor_intCast] at this
    exact this

/-! ### Python string primitives (character-list based, fully computable) -/

/-- Python `s.lower()`. -/
def pyLower (s : String) : String := ⟨s.data.map Char.toLower⟩

/-- Python `needle in hay` (substring containment). -/
def containsSub (hay needle : String) : Bool :=
  hay.data.tails.any (fun t => needle.data.isPrefixOf t)

/-- Python `s.strip()` (the keywords under study only carry plain spaces). -/
def pyStrip (s : String) : String :=
  ⟨((s.data.dropWhile (· = ' ')).reverse.dropWhile (· = ' ')).reverse⟩

/-- Python `len(s)` (number of characters). -/
def pyLen (s : String) : ℕ := s.data.length

def splitWsAux : List Char → List Char → List String
  | [], acc => if acc.isEmpty then [] else [⟨acc.reverse⟩]
  | c :: rest, acc =>
    if c = ' ' then
      if acc.isEmpty then splitWsAux rest []
      else (⟨acc.reverse⟩ : String) :: splitWsAux rest []
    else splitWsAux rest (c :: acc)

/-- Python `s.split()`: split on runs of whitespace, dropping empty pieces. -/
def pySplit (s : String) : List String := splitWsAux s.data []

/-- Python `s.isupper()`: at least one cased character and no lowercase one. -/
def pyIsUpper (s : String) : Bool :=
  let cased := s.data.filter (fun c => c.isUpper || c.isLower)
  !cased.isEmpty && cased.all Char.isUpper

/-- Python `s[0].isupper()` for nonempty `s` (the source raises `IndexError`
on an empty string; theorems about call sites that could reach that case
carry a nonemptiness hypothesis). -/
def firstIsUpper (s : String) : Bool :=
  match s.data with
  | [] => false
  | c :: _ => c.isUpper

/-- Python `" ".join(parts)`. -/
def pyJoin (parts : List String) : String := String.intercalate " " parts

/-! ### The seeded pseudo-random generator

Modelled from the spec: the source draws from NumPy's *global* Mersenne
Twister generator (`np.random.seed` / `np.random.randint` /
`np.random.uniform`), an external library not part of this repository.
The spec requires of it only that "all draws use the same seeded generator
advanced deterministically — same seed ⇒ same competitor set". We embed the
generator as explicit state: `npSeed` resets the state as a function of the
seed alone, and each draw is a deterministic function of the state that also
returns the advanced state (a linear-congruential stand-in for the MT19937
stream; the determinism claims proved below do not depend on the concrete
stream values, only on this explicit-state discipline). -/

structure NpRandom where
  state : ℕ
deriving Repr, DecidableEq

/-- `np.random.seed(s)`: reset the global generator from the seed alone. -/
def npSeed (seed : ℤ) : NpRandom := ⟨seed.toNat % 4294967296⟩

def npNext (g : NpRandom) : ℕ × NpRandom :=
  let x := (g.state * 6364136223846793005 + 1442695040888963407) % 18446744073709551616
  (x, ⟨x⟩)

/-- `np.random.randint(lo, hi)`: uniform integer in `[lo, hi)`. -/
def npRandint (lo hi : ℤ) (g : NpRandom) : ℤ × NpRandom :=
  let (x, g2) := npNext g
  (lo + (x : ℤ) % (hi - lo), g2)

/-- `np.random.uniform(lo, hi)`: uniform rational in `[lo, hi)`. -/
def npUniform (lo hi : ℚ) (g : NpRandom) : ℚ × NpRandom :=
  let (x, g2) := npNext g
  (lo + (hi - lo) * ((x % 9007199254740992 : ℕ) : ℚ) / 9007199254740992, g2)

/-! ### `app/core/constants.py` -/

def MIN_AD_RANK : ℚ := 1.0

def MAX_POSITION : ℕ := 10

def DEFAULT_QUALITY_SCORE : ℤ := 7

/-! ### `app/core/auction.py` and `app/core/enhanced_auction.py`: the auction

The function `run_auction` appears verbatim in both `auction.py` (lines
30-73) and `enhanced_auction.py` (lines 144-188); the only difference is
that the enhanced copy also carries `match_type` into the winner dict via
`ad.get('match_type', 'phrase')`. We embed the enhanced form once; every
theorem below holds for the `auction.py` form by erasing that one field.

A participant dict is modelled as a record: the keys the auction reads
(`keyword`, `match_type`, `bid`, `quality_score`), the key it writes
(`ad_rank`, absent — `none` — until written), and `extra` for any other
keys a caller may have stored, which the auction never touches. Python
mutates the ad dicts in place; the embedding returns the mutated list as
the first component of the result. -/

structure Ad where
  keyword : String
  match_type : Option String := none
  bid : ℚ
  quality_score : ℤ
  ad_rank : Option ℚ := none
  extra : List (String × String) := []
deriving Repr, DecidableEq

/-- `calculate_ad_rank`: Ad Rank = Bid × Quality Score. -/
def calculate_ad_rank (bid : ℚ) (quality_score : ℤ) : ℚ := bid * quality_score

/-- The in-place write `ad['ad_rank'] = calculate_ad_rank(...)`. -/
def writeAdRank (a : Ad) : Ad :=
  { a with ad_rank := some (calculate_ad_rank a.bid a.quality_score) }

/-- The read `ad['ad_rank']` (always present once `writeAdRank` ran). -/
def getAdRank (a : Ad) : ℚ := a.ad_rank.getD 0

/-- The first loop of `run_auction`: write `ad_rank` into every ad. -/
def rankedAds (ads : List Ad) : List Ad := ads.map writeAdRank

/-- The comparator of `sorted(ads, key=lambda x: x['ad_rank'], reverse=True)`:
a stable descending sort, embedded with the stable `mergeSort`. -/
def rankDescLe (x y : Ad) : Bool := decide (getAdRank y ≤ getAdRank x)

def sortedAds (ads : List Ad) : List Ad := (rankedAds ads).mergeSort rankDescLe

/-- `eligible_ads`: drop ads with `ad_rank < MIN_AD_RANK`. -/
def eligibleAds (ads : List Ad) : List Ad :=
  (sortedAds ads).filter (fun a => decide (MIN_AD_RANK ≤ getAdRank a))

structure Winner where
  keyword : String
  match_type : String
  position : ℕ
  ad_rank : ℚ
  cpc : ℚ
  quality_score : ℤ
  bid : ℚ
deriving Repr, DecidableEq

def mkWinner (a : Ad) (position : ℕ) (cpcRaw : ℚ) : Winner :=
  { keyword := a.keyword
    match_type := a.match_type.getD "phrase"
    position := position
    ad_rank := getAdRank a
    cpc := round2 cpcRaw
    quality_score := a.quality_score
    bid := a.bid }

/-- The position-assignment / pricing loop of `run_auction`:
`for position, ad in enumerate(eligible_ads[:MAX_POSITION], start=1)`,
where `if position < len(eligible_ads)` prices against the next eligible
ad (`eligible_ads[position]['ad_rank']`) and the last eligible winner pays
`MIN_AD_RANK / quality_score + 0.01`. -/
def assignWinners : List Ad → ℕ → List Winner
  | [], _ => []
  | [a], position =>
    if position ≤ MAX_POSITION then
      [mkWinner a position (MIN_AD_RANK / (a.quality_score : ℚ) + 1/100)]
    else []
  | a :: b :: rest, position =>
    if position ≤ MAX_POSITION then
      mkWinner a position (getAdRank b / (a.quality_score : ℚ) + 1/100) ::
        assignWinners (b :: rest) (position + 1)
    else []

/-- `run_auction(ads, seed)`: returns the mutated input list, the winners,
and the numpy generator state it leaves behind (`np.random.seed(seed)` is
called on entry; the ranking and pricing draw nothing from it). -/
def run_auction (ads : List Ad) (seed : ℤ) (_g : NpRandom) :
    (List Ad × List Winner) × NpRandom :=
  ((rankedAds ads, assignWinners (eligibleAds ads) 1), npSeed seed)

/-! ### Auction structure lemmas -/

theorem pyRoundInt_eq_of_lt_half {q : ℚ} {n : ℤ} (h1 : (n : ℚ) ≤ q)
    (h2 : q < (n : ℚ) + 1/2) : pyRoundInt q = n := by
  have hfl : ⌊q⌋ = n := by
    rw [Int.floor_eq_iff]
    exact ⟨h1, by linarith⟩
  unfold pyRoundInt
  dsimp only
  rw [hfl]
  have hf : q - (n : ℚ) < 1/2 := by linarith
  rw [if_pos hf]

theorem pyRoundInt_eq_of_half_lt {q : ℚ} {n : ℤ} (h1 : (n : ℚ) + 1/2 < q)
    (h2 : q < (n : ℚ) + 1) : pyRoundInt q = n + 1 := by
  have hfl : ⌊q⌋ = n := by
    rw [Int.floor_eq_iff]
    exact ⟨by linarith, by linarith⟩
  unfold pyRoundInt
  dsimp only
  rw [hfl]
  have hf1 : ¬ (q - (n : ℚ) < 1/2) := by push_neg; linarith
  have hf2 : 1/2 < q - (n : ℚ) := by linarith
  rw [if_neg hf1, if_pos hf2]

/-- Every winner produced by the pricing loop comes from the eligible ad at
the same index, carries position `pos + i`, and is priced against the next
eligible ad's rank (or `MIN_AD_RANK` when none remains). -/
theorem assignWinners_getElem (E : List Ad) (pos i : ℕ) (w : Winner)
    (hw : (assignWinners E pos)[i]? = some w) :
    E[i]?.map (fun a => mkWinner a (pos + i)
      (((E[i+1]?.map getAdRank).getD MIN_AD_RANK) / (a.quality_score : ℚ) + 1/100))
      = some w := by
  induction E, pos using assignWinners.induct generalizing i with
  | case1 pos =>
    simp [assignWinners] at hw
  | case2 a pos hpos =>
    rw [assignWinners, if_pos hpos] at hw
    match i with
    | 0 => simpa using hw
    | j + 1 => simp at hw
  | case3 a pos hpos =>
    rw [assignWinners, if_neg hpos] at hw
    simp at hw
  | case4 a b rest pos hpos ih =>
    rw [assignWinners, if_pos hpos] at hw
    match i with
    | 0 => simpa using hw
    | j + 1 =>
      rw [List.getElem?_cons_succ] at hw
      have h := ih j hw
      have harith : pos + 1 + j = pos + (j + 1) := by omega
      rw [harith] at h
      simpa using h
  | case5 a b rest pos hpos =>
    rw [assignWinners, if_neg hpos] at hw
    simp at hw

theorem getAdRank_writeAdRank (a : Ad) :
    getAdRank (writeAdRank a) = a.bid * a.quality_score := rfl

/-- The eligible list is sorted by non-increasing ad rank. -/
theorem eligibleAds_pairwise (ads : List Ad) :
    (eligibleAds ads).Pairwise (fun x y => getAdRank y ≤ getAdRank x) := by
  unfold eligibleAds sortedAds
  apply List.Pairwise.filter
  have htrans : ∀ x y z : Ad, rankDescLe x y = true → rankDescLe y z = true →
      rankDescLe x z = true := by
    intro x y z hxy hyz
    simp only [rankDescLe, decide_eq_true_eq] at *
    exact le_trans hyz hxy
  have htotal : ∀ x y : Ad, (rankDescLe x y || rankDescLe y x) = true := by
    intro x y
    simp only [rankDescLe, Bool.or_eq_true, decide_eq_true_eq]
    exact le_total (getAdRank y) (getAdRank x)
  exact (List.sorted_mergeSort htrans htotal (rankedAds ads)).imp
    (fun h => by simpa [rankDescLe] using h)

theorem eligibleAds_mem_min_rank (ads : List Ad) :
    ∀ a ∈ eligibleAds ads, MIN_AD_RANK ≤ getAdRank a := by
  intro a ha
  have := List.of_mem_filter ha
  simpa using this

theorem eligibleAds_mem_src (ads : List Ad) :
    ∀ a ∈ eligibleAds ads, ∃ a₀ ∈ ads, a = writeAdRank a₀ := by
  intro a ha
  have h1 : a ∈ sortedAds ads := List.mem_of_mem_filter ha
  have h2 : a ∈ rankedAds ads := by
    unfold sortedAds at h1
    exact List.mem_mergeSort.mp h1
  rcases List.mem_map.mp h2 with ⟨a₀, ha₀, heq⟩
  exact ⟨a₀, ha₀, heq.symm⟩

/-- C3 (amended): every winner's cpc equals the generalized-second-price
formula rounded to two decimals: the ad rank of the next eligible
participant (or `MIN_AD_RANK` for the last one), divided by the winner's
quality score, plus $0.01. -/
theorem run_auction_gsp_pricing (ads : List Ad) (seed : ℤ) (g : NpRandom)
    (i : ℕ) (w : Winner) (hw : ((run_auction ads seed g).1.2)[i]? = some w) :
    w.cpc = round2 ((((eligibleAds ads)[i+1]?.map getAdRank).getD MIN_AD_RANK)
      / (w.quality_score : ℚ) + 1/100) := by
  have h := assignWinners_getElem (eligibleAds ads) 1 i w hw
  cases ha : (eligibleAds ads)[i]? with
  | none => rw [ha] at h; simp at h
  | some a =>
    rw [ha] at h
    simp only [Option.map, Option.some_inj] at h
    rw [← h]
    rfl

/-- C4 (amended): positions are ordered by non-increasing ad rank, and every
winner pays at most its own bid plus the one-cent increment (rounded): on an
exact ad-rank tie, or when the last winner's rank sits exactly at the
eligibility floor, the charge is `bid + $0.01`, so `cpc ≤ bid` itself fails;
`cpc ≤ round2 (bid + 0.01)` is the bound the code guarantees. -/
theorem run_auction_price_bound_and_rank_order (ads : List Ad) (seed : ℤ)
    (g : NpRandom) (hqs : ∀ a ∈ ads, 0 < a.quality_score) :
    (∀ w ∈ (run_auction ads seed g).1.2, w.cpc ≤ round2 (w.bid + 1/100)) ∧
    (∀ (i : ℕ) (w w' : Winner), ((run_auction ads seed g).1.2)[i]? = some w →
      ((run_auction ads seed g).1.2)[i+1]? = some w' →
      w'.ad_rank ≤ w.ad_rank) := by
  have hfield : ∀ (i : ℕ) (w : Winner),
      ((run_auction ads seed g).1.2)[i]? = some w →
      ∃ a, (eligibleAds ads)[i]? = some a ∧
        w.cpc = round2 ((((eligibleAds ads)[i+1]?.map getAdRank).getD MIN_AD_RANK)
          / (a.quality_score : ℚ) + 1/100) ∧
        w.bid = a.bid ∧ w.quality_score = a.quality_score ∧
        w.ad_rank = getAdRank a := by
    intro i w hw
    have h := assignWinners_getElem (eligibleAds ads) 1 i w hw
    cases ha : (eligibleAds ads)[i]? with
    | none => rw [ha] at h; simp at h
    | some a =>
      rw [ha] at h
      simp only [Option.map, Option.some_inj] at h
      exact ⟨a, rfl, by rw [← h]; exact ⟨rfl, rfl, rfl, rfl⟩⟩
  constructor
  · intro w hwmem
    rcases List.mem_iff_getElem?.mp hwmem with ⟨i, hw⟩
    rcases hfield i w hw with ⟨a, ha, hcpc, hbid, hqsw, _⟩
    have hamem : a ∈ eligibleAds ads := List.mem_iff_getElem?.mpr ⟨i, ha⟩
    rcases eligibleAds_mem_src ads a hamem with ⟨a₀, ha₀, heq⟩
    have hqa : 0 < a.quality_score := by rw [heq]; exact hqs a₀ ha₀
    have hqa' : (0 : ℚ) < (a.quality_score : ℚ) := by exact_mod_cast hqa
    have hrank : getAdRank a = a.bid * (a.quality_score : ℚ) := by
      rw [heq]; rfl
    have hnext : (((eligibleAds ads)[i+1]?.map getAdRank).getD MIN_AD_RANK)
        ≤ getAdRank a := by
      cases hb : (eligibleAds ads)[i+1]? with
      | none => simpa using eligibleAds_mem_min_rank ads a hamem
      | some b =>
        simp only [hb, Option.map, Option.getD]
        rcases List.getElem?_eq_some_iff.mp ha with ⟨hilt, hia⟩
        rcases List.getElem?_eq_some_iff.mp hb with ⟨hjlt, hjb⟩
        have hp := List.pairwise_iff_getElem.mp (eligibleAds_pairwise ads)
          i (i+1) hilt hjlt (by omega)
        rw [hia, hjb] at hp
        exact hp
    have hdiv : (((eligibleAds ads)[i+1]?.map getAdRank).getD MIN_AD_RANK)
        / (a.quality_score : ℚ) ≤ a.bid := by
      have h1 := div_le_div_of_nonneg_right (le_trans hnext (le_of_eq hrank))
        (le_of_lt hqa')
      rwa [mul_div_cancel_right₀ a.bid (ne_of_gt hqa')] at h1
    rw [hcpc, hbid]
    exact round2_mono (by linarith)
  · intro i w w' hw hw'
    rcases hfield i w hw with ⟨a, ha, _, _, _, hranka⟩
    rcases hfield (i+1) w' hw' with ⟨b, hb, _, _, _, hrankb⟩
    rcases List.getElem?_eq_some_iff.mp ha with ⟨hilt, hia⟩
    rcases List.getElem?_eq_some_iff.mp hb with ⟨hjlt, hjb⟩
    have hp := List.pairwise_iff_getElem.mp (eligibleAds_pairwise ads)
      i (i+1) hilt hjlt (by omega)
    rw [hia, hjb] at hp
    rw [hranka, hrankb]
    exact hp

/-- C10: `run_auction` writes `ad_rank = bid × quality_score` into every ad
dict of its input list (in place in the source; the mutated list is the
first component of the embedded result), and leaves every other key of
those dicts unchanged. -/
theorem run_auction_writes_ad_rank (ads : List Ad) (seed : ℤ) (g : NpRandom)
    (i : ℕ) (a : Ad) (ha : ads[i]? = some a) :
    ∃ a', ((run_auction ads seed g).1.1)[i]? = some a' ∧
      a'.ad_rank = some (a.bid * (a.quality_score : ℚ)) ∧
      a'.keyword = a.keyword ∧ a'.match_type = a.match_type ∧
      a'.bid = a.bid ∧ a'.quality_score = a.quality_score ∧
      a'.extra = a.extra := by
  refine ⟨writeAdRank a, ?_, rfl, rfl, rfl, rfl, rfl, rfl⟩
  show (rankedAds ads)[i]? = some (writeAdRank a)
  unfold rankedAds
  rw [List.getElem?_map, ha]
  rfl

/-! ### Concrete auction evaluation helpers -/

theorem round2_eq_of_mul_eq_intCast {q : ℚ} {n : ℤ} (h : q * 100 = (n : ℚ)) :
    round2 q = (n : ℚ) / 100 := by
  unfold round2
  rw [h, pyRoundInt_intCast]

theorem eligibleAds_pair {X Y X' Y' : Ad} (hX : writeAdRank X = X')
    (hY : writeAdRank Y = Y') (hs : getAdRank Y' ≤ getAdRank X')
    (hXe : MIN_AD_RANK ≤ getAdRank X') (hYe : MIN_AD_RANK ≤ getAdRank Y') :
    eligibleAds [X, Y] = [X', Y'] := by
  unfold eligibleAds sortedAds rankedAds
  have hmap : [X, Y].map writeAdRank = [X', Y'] := by
    rw [List.map_cons, List.map_cons, List.map_nil, hX, hY]
  rw [hmap]
  have hsorted : List.Pairwise (fun a b => rankDescLe a b = true) [X', Y'] := by
    simp [List.pairwise_cons, rankDescLe, hs]
  rw [List.mergeSort_of_sorted hsorted]
  have h1 : (decide (MIN_AD_RANK ≤ getAdRank X')) = true := decide_eq_true hXe
  have h2 : (decide (MIN_AD_RANK ≤ getAdRank Y')) = true := decide_eq_true hYe
  simp [List.filter, h1, h2]

theorem eligibleAds_single {X X' : Ad} (hX : writeAdRank X = X')
    (hXe : MIN_AD_RANK ≤ getAdRank X') : eligibleAds [X] = [X'] := by
  unfold eligibleAds sortedAds rankedAds
  have hmap : [X].map writeAdRank = [X'] := by rw [List.map_cons, List.map_nil, hX]
  rw [hmap]
  have hsorted : List.Pairwise (fun a b => rankDescLe a b = true) [X'] := by simp
  rw [List.mergeSort_of_sorted hsorted]
  have h1 : (decide (MIN_AD_RANK ≤ getAdRank X')) = true := decide_eq_true hXe
  simp [List.filter, h1]

theorem assignWinners_pair (A B : Ad) : assignWinners [A, B] 1 =
    [mkWinner A 1 (getAdRank B / (A.quality_score : ℚ) + 1/100),
     mkWinner B 2 (MIN_AD_RANK / (B.quality_score : ℚ) + 1/100)] := by
  norm_num [assignWinners, MAX_POSITION]

theorem assignWinners_single (A : Ad) : assignWinners [A] 1 =
    [mkWinner A 1 (MIN_AD_RANK / (A.quality_score : ℚ) + 1/100)] := by
  norm_num [assignWinners, MAX_POSITION]

/-- C3 counterexample: with participants of ad rank 30 (bid 10, QS 3) and 10,
the position-1 winner's cpc is `round(10/3 + 0.01, 2) = 3.34`, not the
unrounded `10/3 + 0.01` the claim states. -/
theorem run_auction_gsp_pricing_cex :
    (((run_auction
        [{ keyword := "kwx", bid := 10, quality_score := 3 },
         { keyword := "kwy", bid := 2, quality_score := 5 }] 12345
        ⟨0⟩).1.2)[0]?.map Winner.cpc) = some (167/50) ∧
      (167/50 : ℚ) ≠ 10/3 + 1/100 := by
  constructor
  · have helig : eligibleAds
        [{ keyword := "kwx", bid := 10, quality_score := 3 },
         { keyword := "kwy", bid := 2, quality_score := 5 }] =
        [{ keyword := "kwx", bid := 10, quality_score := 3, ad_rank := some 30 },
         { keyword := "kwy", bid := 2, quality_score := 5, ad_rank := some 10 }] := by
      apply eligibleAds_pair
      · unfold writeAdRank calculate_ad_rank; norm_num
      · unfold writeAdRank calculate_ad_rank; norm_num
      · show (10 : ℚ) ≤ 30; norm_num
      · show MIN_AD_RANK ≤ (30 : ℚ); norm_num [MIN_AD_RANK]
      · show MIN_AD_RANK ≤ (10 : ℚ); norm_num [MIN_AD_RANK]
    show ((assignWinners (eligibleAds _) 1)[0]?.map Winner.cpc) = _
    rw [helig, assignWinners_pair]
    have hcpc : round2 ((10 : ℚ) / (3 : ℚ) + 1/100) = (334 : ℚ) / 100 := by
      have harg : (10 : ℚ) / (3 : ℚ) + 1/100 = 1003/300 := by norm_num
      rw [harg]
      unfold round2
      have h2 : (1003 : ℚ)/300 * 100 = 1003/3 := by norm_num
      rw [h2, pyRoundInt_eq_of_lt_half (n := 334) (by norm_num) (by norm_num)]
      norm_num
    simp only [List.getElem?_cons_zero, Option.map, mkWinner]
    show some (round2 ((10 : ℚ) / ((3 : ℤ) : ℚ) + 1/100)) = some ((167 : ℚ)/50)
    rw [show (((3 : ℤ) : ℚ)) = (3 : ℚ) by norm_num, hcpc]
    norm_num
  · norm_num

/-- C3 witness (Scenario B of the spec): ad ranks 80 (bid 10, QS 8) and 40;
the theorem instantiated at this auction yields cpc = 40/8 + 0.01 = $5.01
for the position-1 winner. -/
theorem run_auction_gsp_pricing_witness :
    (((run_auction [{ keyword := "plumber", bid := 10, quality_score := 8 }, { keyword := "rival", bid := 5, quality_score := 8 }] 12345 ⟨0⟩).1.2)[0]?.map Winner.cpc) = some (501/100) := by
  have helig : eligibleAds [{ keyword := "plumber", bid := 10, quality_score := 8 }, { keyword := "rival", bid := 5, quality_score := 8 }] =
      [{ keyword := "plumber", bid := 10, quality_score := 8, ad_rank := some 80 }, { keyword := "rival", bid := 5, quality_score := 8, ad_rank := some 40 }] := by
    apply eligibleAds_pair
    · unfold writeAdRank calculate_ad_rank; norm_num
    · unfold writeAdRank calculate_ad_rank; norm_num
    · show (40 : ℚ) ≤ 80; norm_num
    · show MIN_AD_RANK ≤ (80 : ℚ); norm_num [MIN_AD_RANK]
    · show MIN_AD_RANK ≤ (40 : ℚ); norm_num [MIN_AD_RANK]
  have hwinners : (run_auction [{ keyword := "plumber", bid := 10, quality_score := 8 }, { keyword := "rival", bid := 5, quality_score := 8 }] 12345 ⟨0⟩).1.2 =
      [mkWinner { keyword := "plumber", bid := 10, quality_score := 8, ad_rank := some 80 } 1 (getAdRank { keyword := "rival", bid := 5, quality_score := 8, ad_rank := some 40 } / ((8 : ℤ) : ℚ) + 1/100),
       mkWinner { keyword := "rival", bid := 5, quality_score := 8, ad_rank := some 40 } 2 (MIN_AD_RANK / ((8 : ℤ) : ℚ) + 1/100)] := by
    show assignWinners (eligibleAds _) 1 = _
    rw [helig, assignWinners_pair]
  have hw : ((run_auction [{ keyword := "plumber", bid := 10, quality_score := 8 }, { keyword := "rival", bid := 5, quality_score := 8 }] 12345 ⟨0⟩).1.2)[0]? =
      some (mkWinner { keyword := "plumber", bid := 10, quality_score := 8, ad_rank := some 80 } 1 (getAdRank { keyword := "rival", bid := 5, quality_score := 8, ad_rank := some 40 } / ((8 : ℤ) : ℚ) + 1/100)) := by
    rw [hwinners]; rfl
  have h := run_auction_gsp_pricing _ 12345 ⟨0⟩ 0 _ hw
  rw [helig] at h
  rw [hw]
  simp only [Option.map]
  congr 1
  rw [h]
  simp only [List.getElem?_cons_succ, List.getElem?_cons_zero, Option.map, Option.getD, mkWinner]
  apply round2_eq_of_mul_eq_intCast
  show (getAdRank { keyword := "rival", bid := 5, quality_score := 8, ad_rank := some (40 : ℚ) } / ((8 : ℤ) : ℚ) + 1/100) * 100 = ((501 : ℤ) : ℚ)
  unfold getAdRank
  norm_num

/-- C4 counterexample: two participants with identical ad rank 2 (bid 1,
QS 2); the position-1 winner is charged `2/2 + 0.01 = $1.01`, strictly more
than its own bid of $1, refuting "never pays more than their own bid". -/
theorem run_auction_price_bound_cex :
    (((run_auction
        [{ keyword := "a", bid := 1, quality_score := 2 },
         { keyword := "b", bid := 1, quality_score := 2 }] 12345
        ⟨0⟩).1.2)[0]?.map (fun w => (w.cpc, w.bid))) = some (101/100, 1) ∧
      ¬ ((101/100 : ℚ) ≤ 1) := by
  constructor
  · have helig : eligibleAds
        [{ keyword := "a", bid := 1, quality_score := 2 },
         { keyword := "b", bid := 1, quality_score := 2 }] =
        [{ keyword := "a", bid := 1, quality_score := 2, ad_rank := some 2 },
         { keyword := "b", bid := 1, quality_score := 2, ad_rank := some 2 }] := by
      apply eligibleAds_pair
      · unfold writeAdRank calculate_ad_rank; norm_num
      · unfold writeAdRank calculate_ad_rank; norm_num
      · show (2 : ℚ) ≤ 2; norm_num
      · show MIN_AD_RANK ≤ (2 : ℚ); norm_num [MIN_AD_RANK]
      · show MIN_AD_RANK ≤ (2 : ℚ); norm_num [MIN_AD_RANK]
    show ((assignWinners (eligibleAds _) 1)[0]?.map _) = _
    rw [helig, assignWinners_pair]
    simp only [List.getElem?_cons_zero, Option.map, mkWinner]
    have hcpc : round2 (getAdRank { keyword := "b", bid := 1, quality_score := 2, ad_rank := some (2 : ℚ) } / ((2 : ℤ) : ℚ) + 1/100) = (101 : ℚ) / 100 := by
      apply round2_eq_of_mul_eq_intCast
      unfold getAdRank
      norm_num
    rw [hcpc]
  · norm_num

/-- C4 witness: the amended bound applied to a concrete single-ad auction
(bid 2, QS 4): the lone winner pays `round2(1/4 + 0.01) = $0.26 ≤
round2(2 + 0.01)`. -/
theorem run_auction_price_bound_witness :
    (mkWinner { keyword := "s", bid := 2, quality_score := 4, ad_rank := some 8 } 1 (MIN_AD_RANK / ((4 : ℤ) : ℚ) + 1/100)).cpc ≤
      round2 ((mkWinner { keyword := "s", bid := 2, quality_score := 4, ad_rank := some 8 } 1 (MIN_AD_RANK / ((4 : ℤ) : ℚ) + 1/100)).bid + 1/100) := by
  have helig : eligibleAds [{ keyword := "s", bid := 2, quality_score := 4 }] =
      [{ keyword := "s", bid := 2, quality_score := 4, ad_rank := some 8 }] := by
    apply eligibleAds_single
    · unfold writeAdRank calculate_ad_rank; norm_num
    · show MIN_AD_RANK ≤ (8 : ℚ); norm_num [MIN_AD_RANK]
  have hwinners : (run_auction [{ keyword := "s", bid := 2, quality_score := 4 }] 12345 ⟨0⟩).1.2 =
      [mkWinner { keyword := "s", bid := 2, quality_score := 4, ad_rank := some 8 } 1 (MIN_AD_RANK / ((4 : ℤ) : ℚ) + 1/100)] := by
    show assignWinners (eligibleAds _) 1 = _
    rw [helig, assignWinners_single]
  have hmem : (mkWinner { keyword := "s", bid := 2, quality_score := 4, ad_rank := some 8 } 1 (MIN_AD_RANK / ((4 : ℤ) : ℚ) + 1/100)) ∈
      (run_auction [{ keyword := "s", bid := 2, quality_score := 4 }] 12345 ⟨0⟩).1.2 := by
    rw [hwinners]
    exact List.mem_singleton_self _
  exact (run_auction_price_bound_and_rank_order
    [{ keyword := "s", bid := 2, quality_score := 4 }] 12345 ⟨0⟩
    (by decide)).1 _ hmem

/-- C10 witness: the mutation theorem applied to a concrete one-ad call. -/
theorem run_auction_writes_ad_rank_witness :
    ∃ a', ((run_auction [{ keyword := "p", bid := 3, quality_score := 5 }]
        7 ⟨0⟩).1.1)[0]? = some a' ∧
      a'.ad_rank = some ((3 : ℚ) * ((5 : ℤ) : ℚ)) ∧
      a'.keyword = "p" ∧ a'.match_type = none ∧
      a'.bid = 3 ∧ a'.quality_score = 5 ∧ a'.extra = [] :=
  run_auction_writes_ad_rank [{ keyword := "p", bid := 3, quality_score := 5 }]
    7 ⟨0⟩ 0 { keyword := "p", bid := 3, quality_score := 5 } rfl

/-! ### `app/core/volume_estimation.py`: the volume estimation engine -/

structure VolumeData where
  keyword : String
  monthly_searches : ℤ
  competition : String
  competition_index : ℚ
  avg_cpc : ℚ
  cpc_low : ℚ
  cpc_high : ℚ
deriving Repr, DecidableEq

set_option maxHeartbeats 1600000 in
/-- `VolumeEstimationEngine._load_static_volume_db`, transcribed entry by
entry (constructor order as in the dataclass: keyword, monthly_searches,
competition, competition_index, avg_cpc, cpc_low, cpc_high). -/
def static_volume_db : List (String × VolumeData) := [
  ("plumber", ⟨"plumber", 450000, "High", 0.8, 8.50, 5.20, 12.80⟩),
  ("electrician", ⟨"electrician", 320000, "High", 0.75, 12.30, 8.50, 18.20⟩),
  ("hvac repair", ⟨"hvac repair", 180000, "Medium", 0.65, 15.80, 10.20, 22.50⟩),
  ("roofing contractor", ⟨"roofing contractor", 95000, "Medium", 0.60, 18.90, 12.50, 28.40⟩),
  ("landscaping services", ⟨"landscaping services", 120000, "Medium", 0.55, 14.20, 9.80, 20.10⟩),
  ("web design", ⟨"web design", 280000, "High", 0.85, 12.50, 8.20, 18.90⟩),
  ("seo services", ⟨"seo services", 150000, "High", 0.80, 25.40, 18.50, 35.20⟩),
  ("digital marketing", ⟨"digital marketing", 220000, "High", 0.75, 18.90, 12.80, 28.50⟩),
  ("software development", ⟨"software development", 180000, "Medium", 0.70, 22.10, 15.60, 31.80⟩),
  ("mobile app development", ⟨"mobile app development", 85000, "Medium", 0.65, 28.90, 20.50, 40.20⟩),
  ("dentist", ⟨"dentist", 380000, "High", 0.75, 9.80, 6.50, 15.20⟩),
  ("chiropractor", ⟨"chiropractor", 120000, "Medium", 0.60, 11.20, 7.80, 16.90⟩),
  ("physical therapy", ⟨"physical therapy", 95000, "Medium", 0.55, 13.50, 9.20, 19.80⟩),
  ("mental health counseling", ⟨"mental health counseling", 65000, "Low", 0.45, 16.80, 11.50, 24.20⟩),
  ("veterinarian", ⟨"veterinarian", 150000, "Medium", 0.65, 8.90, 5.80, 13.50⟩),
  ("personal injury lawyer", ⟨"personal injury lawyer", 280000, "High", 0.90, 45.20, 32.80, 68.50⟩),
  ("divorce lawyer", ⟨"divorce lawyer", 180000, "High", 0.85, 38.90, 28.50, 55.20⟩),
  ("criminal defense attorney", ⟨"criminal defense attorney", 120000, "High", 0.80, 42.10, 30.80, 58.90⟩),
  ("estate planning lawyer", ⟨"estate planning lawyer", 85000, "Medium", 0.70, 35.60, 25.20, 48.90⟩),
  ("business lawyer", ⟨"business lawyer", 95000, "Medium", 0.65, 28.90, 20.50, 40.20⟩),
  ("real estate agent", ⟨"real estate agent", 320000, "High", 0.80, 12.50, 8.90, 18.20⟩),
  ("home inspector", ⟨"home inspector", 45000, "Medium", 0.55, 18.90, 12.80, 28.50⟩),
  ("property management", ⟨"property management", 38000, "Low", 0.50, 15.20, 10.50, 22.80⟩),
  ("commercial real estate", ⟨"commercial real estate", 25000, "Medium", 0.60, 22.80, 16.20, 32.50⟩),
  ("real estate investment", ⟨"real estate investment", 18000, "Low", 0.45, 19.50, 13.80, 28.20⟩),
  ("auto repair", ⟨"auto repair", 280000, "High", 0.75, 8.90, 6.20, 13.50⟩),
  ("car insurance", ⟨"car insurance", 450000, "High", 0.85, 12.50, 8.90, 18.20⟩),
  ("used cars", ⟨"used cars", 680000, "High", 0.90, 6.80, 4.50, 10.20⟩),
  ("auto parts", ⟨"auto parts", 180000, "Medium", 0.65, 4.20, 2.80, 6.90⟩),
  ("car detailing", ⟨"car detailing", 65000, "Medium", 0.55, 9.80, 6.50, 15.20⟩),
  ("restaurant", ⟨"restaurant", 520000, "High", 0.80, 3.20, 2.10, 5.80⟩),
  ("pizza delivery", ⟨"pizza delivery", 180000, "High", 0.75, 2.80, 1.90, 4.50⟩),
  ("catering services", ⟨"catering services", 85000, "Medium", 0.60, 8.90, 6.20, 13.50⟩),
  ("food truck", ⟨"food truck", 45000, "Medium", 0.55, 5.20, 3.50, 8.90⟩),
  ("bakery", ⟨"bakery", 65000, "Medium", 0.50, 4.80, 3.20, 7.50⟩),
  ("gym", ⟨"gym", 280000, "High", 0.75, 4.20, 2.80, 6.90⟩),
  ("personal trainer", ⟨"personal trainer", 120000, "Medium", 0.60, 8.90, 6.20, 13.50⟩),
  ("yoga classes", ⟨"yoga classes", 85000, "Medium", 0.55, 6.80, 4.50, 10.20⟩),
  ("massage therapy", ⟨"massage therapy", 95000, "Medium", 0.60, 9.80, 6.50, 15.20⟩),
  ("nutritionist", ⟨"nutritionist", 45000, "Low", 0.45, 12.50, 8.90, 18.20⟩),
  ("online courses", ⟨"online courses", 180000, "High", 0.80, 8.90, 6.20, 13.50⟩),
  ("language learning", ⟨"language learning", 150000, "High", 0.75, 6.80, 4.50, 10.20⟩),
  ("coding bootcamp", ⟨"coding bootcamp", 65000, "Medium", 0.65, 15.20, 10.50, 22.80⟩),
  ("music lessons", ⟨"music lessons", 85000, "Medium", 0.55, 9.80, 6.50, 15.20⟩),
  ("tutoring services", ⟨"tutoring services", 120000, "Medium", 0.60, 8.90, 6.20, 13.50⟩),
  ("online shopping", ⟨"online shopping", 1200000, "High", 0.90, 2.10, 1.40, 3.20⟩),
  ("free shipping", ⟨"free shipping", 450000, "High", 0.85, 1.80, 1.20, 2.80⟩),
  ("discount codes", ⟨"discount codes", 280000, "High", 0.80, 2.50, 1.70, 3.80⟩),
  ("product reviews", ⟨"product reviews", 180000, "Medium", 0.70, 1.90, 1.30, 2.90⟩),
  ("compare prices", ⟨"compare prices", 95000, "Medium", 0.65, 2.20, 1.50, 3.20⟩),
  ("hotel booking", ⟨"hotel booking", 380000, "High", 0.85, 3.20, 2.10, 5.80⟩),
  ("flight deals", ⟨"flight deals", 280000, "High", 0.80, 4.50, 3.00, 6.80⟩),
  ("vacation rental", ⟨"vacation rental", 120000, "Medium", 0.70, 2.80, 1.90, 4.50⟩),
  ("travel insurance", ⟨"travel insurance", 65000, "Medium", 0.60, 5.20, 3.50, 8.90⟩),
  ("tourist attractions", ⟨"tourist attractions", 85000, "Low", 0.50, 1.90, 1.30, 2.90⟩),
  ("credit card", ⟨"credit card", 450000, "High", 0.90, 8.90, 6.20, 13.50⟩),
  ("mortgage rates", ⟨"mortgage rates", 280000, "High", 0.85, 12.50, 8.90, 18.20⟩),
  ("investment advice", ⟨"investment advice", 120000, "High", 0.80, 18.90, 12.80, 28.50⟩),
  ("tax preparation", ⟨"tax preparation", 180000, "High", 0.75, 15.20, 10.50, 22.80⟩),
  ("insurance quotes", ⟨"insurance quotes", 220000, "High", 0.80, 8.90, 6.20, 13.50⟩),
  ("home improvement", ⟨"home improvement", 320000, "High", 0.75, 6.80, 4.50, 10.20⟩),
  ("furniture", ⟨"furniture", 280000, "High", 0.80, 4.20, 2.80, 6.90⟩),
  ("home decor", ⟨"home decor", 180000, "Medium", 0.70, 3.20, 2.10, 5.80⟩),
  ("garden supplies", ⟨"garden supplies", 95000, "Medium", 0.60, 2.80, 1.90, 4.50⟩),
  ("cleaning services", ⟨"cleaning services", 120000, "Medium", 0.65, 8.90, 6.20, 13.50⟩),
  ("clothing", ⟨"clothing", 680000, "High", 0.85, 2.10, 1.40, 3.20⟩),
  ("shoes", ⟨"shoes", 450000, "High", 0.80, 2.50, 1.70, 3.80⟩),
  ("makeup", ⟨"makeup", 280000, "High", 0.75, 3.20, 2.10, 5.80⟩),
  ("hair salon", ⟨"hair salon", 150000, "Medium", 0.60, 6.80, 4.50, 10.20⟩),
  ("nail salon", ⟨"nail salon", 85000, "Medium", 0.55, 5.20, 3.50, 8.90⟩),
  ("near me", ⟨"near me", 1200000, "High", 0.90, 1.20, 0.80, 1.80⟩),
  ("best", ⟨"best", 2800000, "High", 0.95, 0.80, 0.50, 1.20⟩),
  ("cheap", ⟨"cheap", 1800000, "High", 0.90, 0.90, 0.60, 1.40⟩),
  ("affordable", ⟨"affordable", 1200000, "High", 0.85, 1.10, 0.70, 1.60⟩),
  ("professional", ⟨"professional", 850000, "Medium", 0.70, 2.20, 1.50, 3.20⟩),
  ("local", ⟨"local", 2200000, "High", 0.90, 0.70, 0.50, 1.00⟩),
  ("reviews", ⟨"reviews", 1500000, "High", 0.85, 1.50, 1.00, 2.20⟩),
  ("services", ⟨"services", 3200000, "High", 0.90, 0.60, 0.40, 0.90⟩),
  ("company", ⟨"company", 2800000, "High", 0.85, 0.80, 0.50, 1.20⟩),
  ("business", ⟨"business", 2500000, "High", 0.80, 0.90, 0.60, 1.40⟩)]

/-- `_get_match_type_modifiers`. -/
def volume_match_type_modifiers : List (String × ℚ) :=
  [("exact", 1.0), ("phrase", 0.7), ("broad", 0.4)]

/-- `_get_geo_modifiers` (the dict itself contains the `'default'` key). -/
def geo_modifiers : List (String × ℚ) :=
  [("US", 1.0), ("CA", 0.15), ("UK", 0.12), ("AU", 0.08), ("DE", 0.10),
   ("FR", 0.08), ("IT", 0.06), ("ES", 0.05), ("EU", 0.25), ("default", 0.05)]

/-- The `length_modifiers` table of `_estimate_volume_from_keyword`
(default 5000 beyond length 10; Python's `dict.get(len(keyword), 5000)`
also yields 5000 for length 0). -/
def length_modifiers (n : ℕ) : ℚ :=
  if n = 1 then 500000 else if n = 2 then 200000 else if n = 3 then 100000
  else if n = 4 then 80000 else if n = 5 then 60000 else if n = 6 then 40000
  else if n = 7 then 25000 else if n = 8 then 15000 else if n = 9 then 10000
  else if n = 10 then 8000 else 5000

def high_volume_words : List String :=
  ["near", "me", "best", "cheap", "affordable", "local", "reviews",
   "services", "company", "business"]

def business_terms : List String :=
  ["service", "company", "business", "professional", "expert", "specialist"]

/-- `_estimate_volume_from_keyword` (always called on the lowercased,
stripped keyword). The final brand-name check reads `keyword[0]`, which in
Python raises `IndexError` on an empty string; the embedding returns a value
there, and theorems about this path assume the keyword is nonempty. -/
def estimate_volume_from_keyword (keyword : String) : ℤ :=
  let base0 := length_modifiers (pyLen keyword)
  let b1 := if high_volume_words.any (fun w => containsSub keyword w) then base0 * 2.0 else base0
  let b2 := if business_terms.any (fun t => containsSub keyword t) then b1 * 1.5 else b1
  let nwords := (pySplit keyword).length
  let b3 := if 2 < nwords then b2 * 0.3 else if nwords = 2 then b2 * 0.7 else b2
  let b4 := if pyIsUpper keyword || firstIsUpper keyword then b3 * 0.2 else b3
  pyInt b4

structure AuctionEstimate where
  keyword : String
  match_type : String
  daily_auctions : ℤ
  volume_source : String
  confidence : ℚ
deriving Repr, DecidableEq

/-- `VolumeEstimationEngine.estimate_daily_auctions`:
`daily_auctions = max(1, int((monthly_searches / 30) * match_modifier * geo_modifier))`. -/
def estimate_daily_auctions (keyword match_type geo : String) : AuctionEstimate :=
  let normalized := pyStrip (pyLower keyword)
  let match_modifier := (volume_match_type_modifiers.lookup match_type).getD 0.5
  let geo_modifier := (geo_modifiers.lookup geo).getD ((geo_modifiers.lookup "default").getD 0)
  match static_volume_db.lookup normalized with
  | some vd =>
    { keyword := keyword, match_type := match_type, daily_auctions := max 1 (pyInt (((vd.monthly_searches : ℚ) / 30) * match_modifier * geo_modifier)), volume_source := "static", confidence := 0.9 }
  | none =>
    { keyword := keyword, match_type := match_type, daily_auctions := max 1 (pyInt (((estimate_volume_from_keyword normalized : ℚ) / 30) * match_modifier * geo_modifier)), volume_source := "estimated", confidence := 0.6 }

/-- `get_volume_data`. -/
def get_volume_data (keyword : String) : Option VolumeData :=
  static_volume_db.lookup (pyStrip (pyLower keyword))

/-- `get_competition_level` (the length heuristics run on the raw argument,
not the normalized keyword). -/
def get_competition_level (keyword : String) : String :=
  match get_volume_data keyword with
  | some vd => vd.competition
  | none =>
    if (pySplit keyword).length = 1 && pyLen keyword ≤ 6 then "High"
    else if 3 ≤ (pySplit keyword).length then "Low"
    else "Medium"

/-- `get_estimated_cpc` returning `(low, avg, high)`. The source also
computes `match_modifier = self.match_type_modifiers.get(match_type, 0.5)`
but never uses it; only the exact/phrase/broad `cpc_multiplier` matters. -/
def get_estimated_cpc (keyword match_type : String) : ℚ × ℚ × ℚ :=
  let base :=
    match get_volume_data keyword with
    | some vd => (vd.cpc_low, vd.avg_cpc, vd.cpc_high)
    | none =>
      if get_competition_level keyword = "High" then ((8.0 : ℚ), (15.0 : ℚ), (25.0 : ℚ))
      else if get_competition_level keyword = "Medium" then (4.0, 8.0, 15.0)
      else (2.0, 5.0, 10.0)
  let cpc_multiplier : ℚ :=
    if match_type = "exact" then 1.2 else if match_type = "phrase" then 1.0 else 0.8
  (base.1 * cpc_multiplier, base.2.1 * cpc_multiplier, base.2.2 * cpc_multiplier)

/-- C6 (amended): `daily_auctions = max(1, int((monthly_searches / 30) ×
match_type_modifier × geo_modifier))` — the source *truncates* with `int()`
rather than rounding to the nearest integer as the claim states; the
modifiers are exact 1.0 / phrase 0.7 / broad 0.4, an unrecognized geo uses
the default 0.05, an unknown keyword yields volume_source "estimated", and
the result is always at least 1. (The nonemptiness hypothesis mirrors the
`IndexError` Python would raise on an empty normalized keyword.) -/
theorem estimate_daily_auctions_spec (keyword match_type geo : String)
    (_hne : pyStrip (pyLower keyword) ≠ "") :
    (estimate_daily_auctions keyword match_type geo).daily_auctions =
      max 1 (pyInt ((match static_volume_db.lookup (pyStrip (pyLower keyword)) with
        | some vd => ((vd.monthly_searches : ℚ) : ℚ)
        | none => ((estimate_volume_from_keyword (pyStrip (pyLower keyword)) : ℤ) : ℚ)) / 30
        * ((volume_match_type_modifiers.lookup match_type).getD 0.5)
        * ((geo_modifiers.lookup geo).getD 0.05))) ∧
    1 ≤ (estimate_daily_auctions keyword match_type geo).daily_auctions ∧
    volume_match_type_modifiers.lookup "exact" = some 1.0 ∧
    volume_match_type_modifiers.lookup "phrase" = some 0.7 ∧
    volume_match_type_modifiers.lookup "broad" = some 0.4 ∧
    (static_volume_db.lookup (pyStrip (pyLower keyword)) = none →
      (estimate_daily_auctions keyword match_type geo).volume_source = "estimated") := by
  have hdefault : ((geo_modifiers.lookup "default").getD 0 : ℚ) = 0.05 := rfl
  refine ⟨?_, ?_, rfl, rfl, rfl, ?_⟩
  · unfold estimate_daily_auctions
    cases h : static_volume_db.lookup (pyStrip (pyLower keyword)) with
    | some vd => simp only [h, hdefault]
    | none => simp only [h, hdefault]
  · unfold estimate_daily_auctions
    cases h : static_volume_db.lookup (pyStrip (pyLower keyword)) with
    | some vd => simp only [h]; exact le_max_left 1 _
    | none => simp only [h]; exact le_max_left 1 _
  · intro h
    unfold estimate_daily_auctions
    simp only [h]

/-- C6 counterexample: for keyword "electrician" (monthly volume 320000),
exact match, geo US, the source computes `int(320000/30) = 10666` daily
auctions, while the claim's `max(1, round(320000/30 × 1.0 × 1.0))` is
10667. -/
theorem estimate_daily_auctions_cex :
    (estimate_daily_auctions "electrician" "exact" "US").daily_auctions = 10666 ∧
    max 1 (pyRoundInt ((320000 : ℚ) / 30 * 1.0 * 1.0)) = 10667 ∧
    (10666 : ℤ) ≠ 10667 := by
  refine ⟨?_, ?_, by decide⟩
  · have hnk : pyStrip (pyLower "electrician") = "electrician" := by decide
    unfold estimate_daily_auctions
    rw [hnk]
    dsimp only
    rw [show static_volume_db.lookup "electrician" = some ⟨"electrician", 320000, "High", 0.75, 12.30, 8.50, 18.20⟩ from rfl]
    simp only
    rw [show volume_match_type_modifiers.lookup "exact" = some 1.0 from rfl]
    rw [show geo_modifiers.lookup "US" = some 1.0 from rfl]
    simp only [Option.getD]
    rw [show ((((320000 : ℤ) : ℚ)) / 30) * (1.0 : ℚ) * (1.0 : ℚ) = 32000/3 from by norm_num]
    rw [show pyInt ((32000 : ℚ)/3) = 10666 from ?_]
    · norm_num
    · unfold pyInt
      rw [if_neg (by norm_num)]
      rw [Int.floor_eq_iff]
      constructor <;> norm_num
  · rw [show (320000 : ℚ) / 30 * 1.0 * 1.0 = 32000/3 from by norm_num]
    rw [pyRoundInt_eq_of_half_lt (n := 10666) (by norm_num) (by norm_num)]
    norm_num

/-- C6 witness (Scenario E of the spec): the unknown keyword
"xyzzyfoobar123" with broad match and unrecognized geo "ZZ" yields volume
source "estimated" and at least one daily auction. -/
theorem estimate_daily_auctions_witness :
    pyStrip (pyLower "xyzzyfoobar123") ≠ "" ∧
    1 ≤ (estimate_daily_auctions "xyzzyfoobar123" "broad" "ZZ").daily_auctions ∧
    (estimate_daily_auctions "xyzzyfoobar123" "broad" "ZZ").volume_source = "estimated" := by
  have h := estimate_daily_auctions_spec "xyzzyfoobar123" "broad" "ZZ" (by decide)
  exact ⟨by decide, h.2.1, h.2.2.2.2.2 (by decide)⟩

/-! ### `app/core/quality_score_engine.py`: the Quality Score engine

The engine's AI branches (Gemini, sentence-transformers) are optional
network/ML dependencies guarded by import checks and an API key; the
deterministic default configuration — the one the spec's determinism
contract requires — has both unavailable (`gemini_model = None`,
`sentence_model = None`), so `check_ad_relevance` always takes the
rule-based path, which is what we embed. `calculate_landing_page_experience`
memoizes the pure offline analyzer in `lp_cache`; the embedding is the
analyzer itself. -/

structure AdData where
  headlines : List String
  descriptions : List String
  display_url : String
  final_url : String
  extensions : List String := []
  device_targeting : String := "all"
  ad_type : String := "search"
deriving Repr, DecidableEq

structure KeywordData where
  text : String
  match_type : String
  intent : String := "informational"
  competition : String := "medium"
deriving Repr, DecidableEq

structure QualityScoreComponents where
  expected_ctr : ℚ
  ad_relevance : ℚ
  landing_page_experience : ℚ
  extension_bonus : ℚ
  raw_score : ℚ
  final_score : ℚ
deriving Repr, DecidableEq

/-- `_keyword_in_ad`. -/
def keyword_in_ad (ad : AdData) (keyword : String) : Bool :=
  containsSub (pyLower (pyJoin (ad.headlines ++ ad.descriptions))) (pyLower keyword)

/-- `predict_expected_ctr`. -/
def predict_expected_ctr (ad : AdData) (keyword : KeywordData) : ℚ :=
  let b0 : ℚ := 0.03
  let b1 := if keyword.intent = "transactional" then b0 + 0.03
            else if keyword.intent = "navigational" then b0 + 0.02
            else if keyword.intent = "informational" then b0 + 0.01 else b0
  let b2 := if keyword.match_type = "exact" then b1 + 0.02
            else if keyword.match_type = "phrase" then b1 + 0.01 else b1
  let b3 := if keyword_in_ad ad keyword.text then b2 + 0.02 else b2
  let b4 := if ad.device_targeting = "mobile" then b3 + 0.01 else b3
  let b5 := if 2 < ad.extensions.length then b4 + 0.01 else b4
  let b6 := if keyword.competition = "low" then b5 + 0.01
            else if keyword.competition = "high" then b5 - 0.01 else b5
  min 1.0 (max 0.01 b6)

def transactional_words : List String :=
  ["buy", "purchase", "order", "shop", "price", "deal", "sale"]

/-- `_check_relevance_rule_based` (`check_ad_relevance` reduces to this in
the deterministic default configuration). The guarded fractional-overlap
term never divides by zero in the source because `matched_words > 0`
implies the keyword has words. -/
def check_relevance_rule_based (ad : AdData) (keyword : KeywordData) : ℚ :=
  let keyword_lower := pyLower keyword.text
  let ad_content := pyLower (pyJoin (ad.headlines ++ ad.descriptions))
  let s1 : ℚ := if containsSub ad_content keyword_lower then 0.5 + 0.3 else 0.5
  let keyword_words := pySplit keyword_lower
  let matched_words := (keyword_words.filter (fun w => containsSub ad_content w)).length
  let s2 := if 0 < matched_words then s1 + 0.2 * ((matched_words : ℚ) / (keyword_words.length : ℚ)) else s1
  let s3 := if keyword.intent = "transactional" ∧ transactional_words.any (fun w => containsSub ad_content w) = true then s2 + 0.1 else s2
  min 1.0 s3

/-- The part of `urllib.parse.urlparse` the analyzer consumes: the
character list after the first `"://"`, when present. -/
def afterScheme : List Char → Option (List Char)
  | [] => none
  | c :: rest =>
    if [':', '/', '/'].isPrefixOf (c :: rest) then some ((c :: rest).drop 3)
    else afterScheme rest

/-- `urlparse(url).netloc` for the scheme-qualified URLs the engine sees
(no scheme ⇒ empty netloc, as in `urlparse`). -/
def urlNetloc (url : String) : String :=
  match afterScheme url.data with
  | some rest => ⟨rest.takeWhile (· ≠ '/')⟩
  | none => ""

/-- `urlparse(url).path` under the same conditions. -/
def urlPath (url : String) : String :=
  match afterScheme url.data with
  | some rest => ⟨rest.dropWhile (· ≠ '/')⟩
  | none => url

/-- Python `s.startswith(prefix)`. -/
def pyStartswith (s pre : String) : Bool := pre.data.isPrefixOf s.data

def high_quality_domains : List String :=
  ["google.com", "microsoft.com", "apple.com", "amazon.com", "facebook.com"]

/-- `_analyze_landing_page_offline`. -/
def analyze_landing_page_offline (url : String) : ℚ :=
  let domain := pyLower (urlNetloc url)
  let s1 : ℚ := if pyStartswith url "https://" then 1.0 else 1.0 - 0.1
  let s2 := if ["localhost", "test", "demo", "example"].any (fun k => containsSub domain k) then s1 - 0.3 else s1
  let s3 := if high_quality_domains.any (fun d => containsSub domain d) then s2 + 0.1 else s2
  let path := pyLower (urlPath url)
  let s4 := if ["/landing", "/lp", "/offer", "/deal"].any (fun p => containsSub path p) then s3 + 0.05 else s3
  let s5 := if ["/404", "/error", "/not-found"].any (fun p => containsSub path p) then s4 - 0.4 else s4
  let s6 := if 100 < pyLen url then s5 - 0.05 else s5
  let subdomain := if containsSub domain "." then (⟨domain.data.takeWhile (· ≠ '.')⟩ : String) else ""
  let s7 := if ["www", "shop", "store", "app"].contains subdomain then s6 + 0.02 else s6
  max 0.1 (min 1.0 (round2 s7))

/-- `calculate_extension_bonus`. -/
def calculate_extension_bonus (ad : AdData) : ℚ :=
  if ad.extensions.isEmpty then 1.0
  else if 4 ≤ ad.extensions.length then 1.5
  else if 3 ≤ ad.extensions.length then 1.3
  else if 2 ≤ ad.extensions.length then 1.2
  else if 1 ≤ ad.extensions.length then 1.1
  else 1.0

/-- Python `final_url or ad.final_url` (`None` and `""` are falsy). -/
def pyOrStr (a : Option String) (b : String) : String :=
  match a with
  | none => b
  | some s => if s = "" then b else s

/-- `QualityScoreEngine.calculate_quality_score`:
`raw = expected_ctr × ad_relevance × landing_page × extension_bonus × 10`,
`final = min(10.0, round(raw, 1))` — capped above at 10, *not* clamped
below at 1. -/
def calculate_quality_score (ad : AdData) (keyword : KeywordData) (final_url : Option String) : QualityScoreComponents :=
  let url := pyOrStr final_url ad.final_url
  let expected_ctr := predict_expected_ctr ad keyword
  let ad_relevance := check_relevance_rule_based ad keyword
  let landing_page_score := analyze_landing_page_offline url
  let extension_bonus := calculate_extension_bonus ad
  let raw_score := expected_ctr * ad_relevance * landing_page_score * extension_bonus * 10
  let final_score := min 10.0 (round1 raw_score)
  ⟨expected_ctr, ad_relevance, landing_page_score, extension_bonus, raw_score, final_score⟩

/-! ### Campaign context (the open `campaign_context` dict)

One record with optional fields models the dict over every key the core
reads; an absent field is an absent key. `dict.get(k, d)` becomes
`Option.getD`. A `None` context is `none`; Python's truthiness test
`if campaign_context:` is false for `none` and for the all-absent (empty)
dict. -/

structure CampaignContext where
  goal : Option String := none
  reach_methods : Option (List String) := none
  lp_score : Option ℚ := none
  geo : Option String := none
  ad_headline : Option String := none
  ad_description : Option String := none
  display_url : Option String := none
  final_url : Option String := none
  extensions : Option (List String) := none
  device_targeting : Option String := none
  keyword_intent : Option String := none
  competition_level : Option String := none
deriving Repr, DecidableEq

def ctxIsEmptyDict (c : CampaignContext) : Bool :=
  c.goal.isNone && c.reach_methods.isNone && c.lp_score.isNone && c.geo.isNone &&
  c.ad_headline.isNone && c.ad_description.isNone && c.display_url.isNone &&
  c.final_url.isNone && c.extensions.isNone && c.device_targeting.isNone &&
  c.keyword_intent.isNone && c.competition_level.isNone

set_option linter.unusedVariables false in
/-- `calculate_simple_quality_score` (`enhanced_auction.py` lines 79-125;
the `keyword` parameter is unused in the source as well). -/
def calculate_simple_quality_score (keyword match_type : String)
    (campaign_context : Option CampaignContext)
    (ad_relevance_score landing_page_score : ℚ) : ℤ :=
  let base_qs : ℚ := 5.0
  let relevance_modifier := (ad_relevance_score - 0.5) * 4
  let ctr_modifier := (([("exact", (1.2 : ℚ)), ("phrase", 1.0), ("broad", 0.8)] : List (String × ℚ)).lookup match_type).getD 1.0
  let lp_modifier := (landing_page_score - 0.5) * 2
  let goal_modifier : ℚ :=
    match campaign_context with
    | none => 1.0
    | some c =>
      if ctxIsEmptyDict c then 1.0
      else
        let goal := c.goal.getD "sales"
        let reach_methods := c.reach_methods.getD []
        if (goal = "sales" ∨ goal = "leads") ∧ reach_methods.contains "Your business\x27s website" = true then 1.1
        else if goal = "website_traffic" then 1.05
        else 1.0
  let final_qs := (base_qs + relevance_modifier + (ctr_modifier - 1.0) + lp_modifier) * goal_modifier
  pyRoundInt (max 1 (min 10 final_qs))

/-- `calculate_enhanced_quality_score`: builds `AdData`/`KeywordData` from
the context (an empty dict takes the default branch in the source, which
produces exactly the same values as the per-key defaults) and truncates the
engine score with `int(...)`. The `except` fallback to the simple score is
unreachable here because the embedded engine is total. The last two
arguments are the deprecated `ad_relevance_score`/`landing_page_score`,
unused on this path. -/
def calculate_enhanced_quality_score (keyword match_type : String)
    (campaign_context : Option CampaignContext)
    (_ad_relevance_score _landing_page_score : ℚ) : ℤ :=
  let ad : AdData :=
    match campaign_context with
    | some c => { headlines := [c.ad_headline.getD "Generic Ad"], descriptions := [c.ad_description.getD "Generic description"], display_url := c.display_url.getD "example.com", final_url := c.final_url.getD "https://example.com", extensions := c.extensions.getD [], device_targeting := c.device_targeting.getD "all" }
    | none => { headlines := ["Generic Ad"], descriptions := ["Generic description"], display_url := "example.com", final_url := "https://example.com", extensions := [], device_targeting := "all" }
  let keyword_obj : KeywordData :=
    { text := keyword, match_type := match_type,
      intent := match campaign_context with | some c => c.keyword_intent.getD "informational" | none => "informational",
      competition := match campaign_context with | some c => c.competition_level.getD "medium" | none => "medium" }
  pyInt (calculate_quality_score ad keyword_obj none).final_score

/-- C5 (amended): `calculate_simple_quality_score` is clamped to [1, 10],
but the Quality Score engine's `calculate_quality_score` (and hence
`calculate_enhanced_quality_score`, which truncates it) is only capped
above at 10 — there is no lower clamp at 1. -/
theorem quality_score_bounds (ad : AdData) (kw : KeywordData) (u : Option String)
    (keyword match_type : String) (ctx : Option CampaignContext) (r lp : ℚ) :
    1 ≤ calculate_simple_quality_score keyword match_type ctx r lp ∧
    calculate_simple_quality_score keyword match_type ctx r lp ≤ 10 ∧
    (calculate_quality_score ad kw u).final_score ≤ 10 ∧
    calculate_enhanced_quality_score keyword match_type ctx r lp ≤ 10 := by
  refine ⟨?_, ?_, ?_, ?_⟩
  · unfold calculate_simple_quality_score
    apply one_le_pyRoundInt
    exact le_max_left 1 _
  · unfold calculate_simple_quality_score
    apply pyRoundInt_le_ten
    refine max_le ?_ (min_le_left _ _)
    norm_num
  · unfold calculate_quality_score
    dsimp only
    exact le_trans (min_le_left _ _) (by norm_num)
  · unfold calculate_enhanced_quality_score
    apply pyInt_le_of_le (by norm_num)
    show (calculate_quality_score _ _ none).final_score ≤ ((10 : ℤ) : ℚ)
    unfold calculate_quality_score
    dsimp only
    exact le_trans (min_le_left _ _) (by norm_num)

/-- C5 counterexample: a weakly relevant ad on a penalized landing page —
headlines/descriptions "zz", keyword "qq" (informational, high
competition), final URL `http://test.com` — receives engine score
`min(10, round(0.03 × 0.5 × 0.6 × 1.0 × 10, 1)) = 0.1 < 1`, and
`calculate_enhanced_quality_score` truncates it to 0; the claim that every
produced Quality Score lies in [1, 10] is false. -/
theorem quality_score_bounds_cex :
    (calculate_quality_score { headlines := ["zz"], descriptions := ["zz"], display_url := "test.com", final_url := "http://test.com" } { text := "qq", match_type := "broad", competition := "high" } none).final_score = 1/10 ∧
    ¬ ((1 : ℚ) ≤ 1/10) ∧
    calculate_enhanced_quality_score "qq" "broad" (some { ad_headline := some "zz", ad_description := some "zz", display_url := some "test.com", final_url := some "http://test.com", extensions := some [], device_targeting := some "all", keyword_intent := some "informational", competition_level := some "high" }) 0.7 0.7 = 0 ∧
    ¬ ((1 : ℤ) ≤ 0) := by
  have hscore : (calculate_quality_score { headlines := ["zz"], descriptions := ["zz"], display_url := "test.com", final_url := "http://test.com" } { text := "qq", match_type := "broad", competition := "high" } none).final_score = 1/10 := by
    have hctr : predict_expected_ctr { headlines := ["zz"], descriptions := ["zz"], display_url := "test.com", final_url := "http://test.com" } { text := "qq", match_type := "broad", competition := "high" } = 3/100 := by
      unfold predict_expected_ctr
      dsimp only
      rw [show keyword_in_ad { headlines := ["zz"], descriptions := ["zz"], display_url := "test.com", final_url := "http://test.com" } "qq" = false from by decide]
      simp only [if_neg (show ¬("informational" = "transactional") from by decide),
        if_neg (show ¬("informational" = "navigational") from by decide),
        if_pos (show "informational" = "informational" from rfl),
        if_neg (show ¬("broad" = "exact") from by decide),
        if_neg (show ¬("broad" = "phrase") from by decide),
        if_neg (show ¬(false = true) from by decide),
        if_neg (show ¬("all" = "mobile") from by decide),
        if_neg (show ¬(2 < ([] : List String).length) from by decide),
        if_neg (show ¬("high" = "low") from by decide),
        if_pos (show "high" = "high" from rfl)]
      norm_num
    have hrel : check_relevance_rule_based { headlines := ["zz"], descriptions := ["zz"], display_url := "test.com", final_url := "http://test.com" } { text := "qq", match_type := "broad", competition := "high" } = 1/2 := by
      unfold check_relevance_rule_based
      dsimp only
      rw [show containsSub (pyLower (pyJoin (["zz"] ++ ["zz"]))) (pyLower "qq") = false from by decide]
      rw [show ((pySplit (pyLower "qq")).filter (fun w => containsSub (pyLower (pyJoin (["zz"] ++ ["zz"]))) w)).length = 0 from by decide]
      simp only [if_neg (show ¬(false = true) from by decide),
        if_neg (show ¬((0 : ℕ) < 0) from by decide),
        if_neg (show ¬("informational" = "transactional" ∧ transactional_words.any (fun w => containsSub (pyLower (pyJoin (["zz"] ++ ["zz"]))) w) = true) from by decide)]
      norm_num
    have hlp : analyze_landing_page_offline "http://test.com" = 3/5 := by
      unfold analyze_landing_page_offline
      dsimp only
      rw [show pyStartswith "http://test.com" "https://" = false from by decide]
      rw [show (["localhost", "test", "demo", "example"].any (fun k => containsSub (pyLower (urlNetloc "http://test.com")) k)) = true from by decide]
      rw [show (high_quality_domains.any (fun d => containsSub (pyLower (urlNetloc "http://test.com")) d)) = false from by decide]
      rw [show (["/landing", "/lp", "/offer", "/deal"].any (fun p => containsSub (pyLower (urlPath "http://test.com")) p)) = false from by decide]
      rw [show (["/404", "/error", "/not-found"].any (fun p => containsSub (pyLower (urlPath "http://test.com")) p)) = false from by decide]
      rw [if_neg (show ¬ (100 < pyLen "http://test.com") from by decide)]
      rw [show (["www", "shop", "store", "app"].contains (if containsSub (pyLower (urlNetloc "http://test.com")) "." then (⟨(pyLower (urlNetloc "http://test.com")).data.takeWhile (· ≠ '.')⟩ : String) else "")) = false from by decide]
      simp only [if_neg (show ¬(false = true) from by decide),
        if_pos (show true = true from rfl)]
      rw [if_pos trivial]
      rw [show round2 ((1.0 : ℚ) - 0.1 - 0.3) = 3/5 from (round2_eq_of_mul_eq_intCast (q := (1.0 : ℚ) - 0.1 - 0.3) (n := 60) (by norm_num)).trans (by norm_num)]
      norm_num
    unfold calculate_quality_score
    dsimp only
    rw [show pyOrStr none "http://test.com" = "http://test.com" from rfl]
    rw [hctr, hrel, hlp]
    rw [show calculate_extension_bonus { headlines := ["zz"], descriptions := ["zz"], display_url := "test.com", final_url := "http://test.com" } = 1.0 from rfl]
    rw [show (3 : ℚ)/100 * (1/2) * (3/5) * 1.0 * 10 = 9/100 from by norm_num]
    rw [show round1 ((9 : ℚ)/100) = 1/10 from ?_]
    · norm_num
    · unfold round1
      rw [show (9 : ℚ)/100 * 10 = 9/10 from by norm_num]
      rw [pyRoundInt_eq_of_half_lt (n := 0) (by norm_num) (by norm_num)]
      norm_num
  refine ⟨hscore, by norm_num, ?_, by norm_num⟩
  unfold calculate_enhanced_quality_score
  dsimp only [Option.getD]
  rw [hscore]
  unfold pyInt
  rw [if_neg (by norm_num)]
  rw [Int.floor_eq_iff]
  constructor <;> norm_num

/-! ### `app/core/confidence_ranges.py`: deterministic error bounds -/

structure ConfidenceRange where
  lower_bound : ℚ
  upper_bound : ℚ
  confidence_level : ℚ
  variance_percentage : ℚ
deriving Repr, DecidableEq

def base_confidence_factors : List (String × ℚ) :=
  [("volume", 0.02), ("ctr", 0.03), ("cvr", 0.04), ("cpc", 0.05),
   ("cost", 0.06), ("revenue", 0.07), ("roas", 0.08)]

def match_type_variance : List (String × ℚ) :=
  [("exact", 0.01), ("phrase", 0.03), ("broad", 0.05)]

/-- `ConfidenceCalculator._calculate_context_factor`: +0.02 for a poor
landing page (< 0.5), −0.01 for an excellent one (> 0.9); +0.01 only for
goal `brand_awareness` and −0.005 for goal `sales` (every other goal adds
0); +0.01 for non-US geo. A `None` or empty context is falsy and yields 0. -/
def calculate_context_factor (campaign_context : Option CampaignContext) : ℚ :=
  match campaign_context with
  | none => 0.0
  | some c =>
    if ctxIsEmptyDict c then 0.0
    else
      let lp_score := c.lp_score.getD 0.7
      let f1 : ℚ := if lp_score < 0.5 then 0.02 else if 0.9 < lp_score then -0.01 else 0
      let goal := c.goal.getD "sales"
      let f2 : ℚ := if goal = "brand_awareness" then 0.01 else if goal = "sales" then -0.005 else 0
      let geo := c.geo.getD "US"
      let f3 : ℚ := if geo ≠ "US" then 0.01 else 0
      f1 + f2 + f3

/-- `ConfidenceCalculator.calculate_confidence_range`. The source computes
`base_variance` from `base_confidence_factors` but never uses it in
`total_variance`; the dead read is kept as `_base_variance`. -/
def calculate_confidence_range (value : ℚ) (metric_type match_type : String)
    (confidence_level : ℚ) (campaign_context : Option CampaignContext) : ConfidenceRange :=
  let _base_variance := (base_confidence_factors.lookup metric_type).getD 0.05
  let match_variance := (match_type_variance.lookup match_type).getD 0.03
  let context_factor := calculate_context_factor campaign_context
  let total_variance := match_variance + context_factor
  let variance_amount := value * total_variance
  ⟨max 0 (value - variance_amount), value + variance_amount, confidence_level, total_variance⟩

/-- The amended claim's variance, written from its words: match-type base
variance (exact 1%, phrase 3%, broad 5%, default 3%) plus the context
adjustment (poor landing page +2%, excellent −1%, goal `brand_awareness`
+1%, goal `sales` −0.5%, any other goal 0, non-US geo +1%). -/
def variance_amended (match_type : String) (campaign_context : Option CampaignContext) : ℚ :=
  (if match_type = "exact" then 0.01 else if match_type = "phrase" then 0.03
   else if match_type = "broad" then 0.05 else 0.03) +
  (match campaign_context with
   | none => 0.0
   | some c =>
     if ctxIsEmptyDict c then 0.0
     else
       (if c.lp_score.getD 0.7 < 0.5 then (0.02 : ℚ) else if 0.9 < c.lp_score.getD 0.7 then -0.01 else 0) +
       (if c.goal.getD "sales" = "brand_awareness" then 0.01 else if c.goal.getD "sales" = "sales" then -0.005 else 0) +
       (if c.geo.getD "US" ≠ "US" then 0.01 else 0))

/-- C9 (amended): the confidence bounds are
`[max(0, v − v·variance), v + v·variance]` with the variance equal to the
match-type base plus the context adjustment — where the goal adjustment is
+0.01 for `brand_awareness`, −0.005 for `sales`, and 0 otherwise (not the
claimed +0.01 for every non-sales goal) — and the lower bound is never
negative. -/
theorem calculate_confidence_range_spec (value : ℚ) (metric_type match_type : String)
    (confidence_level : ℚ) (campaign_context : Option CampaignContext) :
    (calculate_confidence_range value metric_type match_type confidence_level campaign_context).lower_bound
      = max 0 (value - value * variance_amended match_type campaign_context) ∧
    (calculate_confidence_range value metric_type match_type confidence_level campaign_context).upper_bound
      = value + value * variance_amended match_type campaign_context ∧
    0 ≤ (calculate_confidence_range value metric_type match_type confidence_level campaign_context).lower_bound := by
  have hmt : ((match_type_variance.lookup match_type).getD 0.03)
      = (if match_type = "exact" then (0.01 : ℚ) else if match_type = "phrase" then 0.03
         else if match_type = "broad" then 0.05 else 0.03) := by
    by_cases h1 : match_type = "exact"
    · subst h1; rfl
    · by_cases h2 : match_type = "phrase"
      · subst h2; rfl
      · by_cases h3 : match_type = "broad"
        · subst h3; rfl
        · unfold match_type_variance
          simp [List.lookup, beq_eq_false_iff_ne.mpr h1, beq_eq_false_iff_ne.mpr h2, beq_eq_false_iff_ne.mpr h3, h1, h2, h3]
  have hctx : calculate_context_factor campaign_context
      = (match campaign_context with
         | none => (0.0 : ℚ)
         | some c =>
           if ctxIsEmptyDict c then 0.0
           else
             (if c.lp_score.getD 0.7 < 0.5 then (0.02 : ℚ) else if 0.9 < c.lp_score.getD 0.7 then -0.01 else 0) +
             (if c.goal.getD "sales" = "brand_awareness" then 0.01 else if c.goal.getD "sales" = "sales" then -0.005 else 0) +
             (if c.geo.getD "US" ≠ "US" then 0.01 else 0)) := by
    cases campaign_context with
    | none => rfl
    | some c => rfl
  refine ⟨?_, ?_, ?_⟩
  · unfold calculate_confidence_range variance_amended
    dsimp only
    rw [hmt, hctx]
  · unfold calculate_confidence_range variance_amended
    dsimp only
    rw [hmt, hctx]
  · unfold calculate_confidence_range
    dsimp only
    exact le_max_left 0 _

/-- C9 counterexample: metric value 100, exact match, context with goal
"leads" (a non-sales goal), landing-page score 0.7, geo US. The claim's
formula (variance 0.01 + 0.01 for the non-sales goal) predicts upper bound
102; the code adds nothing for goal "leads" and returns 101. -/
theorem calculate_confidence_range_cex :
    (calculate_confidence_range 100 "ctr" "exact" 0.95 (some { goal := some "leads", lp_score := some 0.7, geo := some "US" })).upper_bound = 101 ∧
    (101 : ℚ) ≠ 100 + 100 * (0.01 + 0.01) := by
  constructor
  · unfold calculate_confidence_range calculate_context_factor
    dsimp only
    rw [show ctxIsEmptyDict { goal := some "leads", lp_score := some 0.7, geo := some "US" } = false from by decide]
    simp only [if_neg (show ¬(false = true) from by decide), Option.getD]
    rw [if_neg (show ¬((0.7 : ℚ) < 0.5) from by norm_num)]
    rw [if_neg (show ¬((0.9 : ℚ) < 0.7) from by norm_num)]
    rw [if_neg (show ¬("leads" = "brand_awareness") from by decide)]
    rw [if_neg (show ¬("leads" = "sales") from by decide)]
    rw [if_neg (show ¬("US" ≠ "US") from by decide)]
    rw [show List.lookup "exact" match_type_variance = some (0.01 : ℚ) from rfl]
    dsimp only
    norm_num
  · norm_num

/-! ### `app/api/simulate.py`: the budget-constraint block of `run_simulation` -/

structure KeywordResult where
  text : String
  clicks : ℤ
  cost : ℚ
  conversions : ℤ
deriving Repr, DecidableEq

/-- The budget-constraint block of `run_simulation` (lines 248-261). Its
inputs are the stored `KeywordResult`s - whose `cost` fields were rounded to
cents when built at line 236 - together with the running totals accumulated
upstream at lines 243-246 from the UNROUNDED per-keyword values (line 245
adds the raw `cost` before any rounding), so `total_cost` is in general not
the sum of the stored `cost` fields. If `total_cost > daily_budget`, every
keyword's clicks/cost/conversions are scaled by `scale_factor = daily_budget
/ total_cost` (`int()` truncation for clicks and conversions, `round(., 2)`
for cost) and the totals are recomputed as sums of the scaled stored values;
otherwise the inputs pass through unchanged. Only the fields the block reads
or writes are modelled. -/
def apply_budget_constraints (daily_budget : ℚ) (keyword_results : List KeywordResult)
    (total_clicks : ℤ) (total_cost : ℚ) (total_conversions : ℤ) :
    List KeywordResult × ℤ × ℚ × ℤ :=
  if daily_budget < total_cost then
    let scale_factor := daily_budget / total_cost
    let scaled := keyword_results.map (fun k => { k with clicks := pyInt ((k.clicks : ℚ) * scale_factor), cost := round2 (k.cost * scale_factor), conversions := pyInt ((k.conversions : ℚ) * scale_factor) })
    (scaled, (scaled.map (·.clicks)).sum, (scaled.map (·.cost)).sum, (scaled.map (·.conversions)).sum)
  else
    (keyword_results, total_clicks, total_cost, total_conversions)

theorem sum_map_round2_le (l : List ℚ) :
    (l.map round2).sum ≤ l.sum + l.length * (1/200) := by
  induction l with
  | nil => simp
  | cons r rs ih =>
    simp only [List.map_cons, List.sum_cons, List.length_cons]
    have h := round2_le_add_half_cent r
    push_cast
    push_cast at ih
    linarith

/-- C8: modelling the upstream accumulation, `raws` are the unrounded
per-keyword costs: each stored `KeywordResult.cost` is the cent-rounded
image of the corresponding raw cost (line 236), while the `total_cost`
handed to the block is the plain sum of the raw costs (line 245). When that
summed cost exceeds the (nonnegative) daily budget, every keyword's clicks,
cost and conversions are scaled by `daily_budget / total_cost` (clicks and
conversions truncated, cost rounded to 2 decimals), and the recomputed
total cost is at most the budget up to rounding: at most one cent per
keyword (half a cent from the stored-cost rounding plus half a cent from
the scaled-cost rounding). -/
theorem apply_budget_constraints_spec (daily_budget : ℚ) (kws : List KeywordResult)
    (tcl tcv : ℤ) (raws : List ℚ)
    (hcost : kws.map (fun k : KeywordResult => k.cost) = raws.map round2)
    (hb : 0 ≤ daily_budget) (hover : daily_budget < raws.sum) :
    (∀ i : ℕ, ((apply_budget_constraints daily_budget kws tcl raws.sum tcv).1)[i]? =
      kws[i]?.map (fun k : KeywordResult => { k with
        clicks := pyInt ((k.clicks : ℚ) * (daily_budget / raws.sum)),
        cost := round2 (k.cost * (daily_budget / raws.sum)),
        conversions := pyInt ((k.conversions : ℚ) * (daily_budget / raws.sum)) })) ∧
    (apply_budget_constraints daily_budget kws tcl raws.sum tcv).2.2.1 ≤
      daily_budget + kws.length * (1/100) := by
  have hS : (0 : ℚ) < raws.sum := lt_of_le_of_lt hb hover
  have hs0 : 0 ≤ daily_budget / raws.sum := div_nonneg hb hS.le
  have hs1 : daily_budget / raws.sum ≤ 1 := (div_le_one hS).mpr hover.le
  have hlen : (kws.length : ℚ) = (raws.length : ℚ) := by
    have h := congrArg List.length hcost
    simp only [List.length_map] at h
    exact_mod_cast h
  unfold apply_budget_constraints
  rw [if_pos hover]
  constructor
  · intro i
    rw [List.getElem?_map]
  · show ((kws.map (fun k : KeywordResult => ({ k with clicks := pyInt ((k.clicks : ℚ) * (daily_budget / raws.sum)), cost := round2 (k.cost * (daily_budget / raws.sum)), conversions := pyInt ((k.conversions : ℚ) * (daily_budget / raws.sum)) } : KeywordResult))).map (fun j : KeywordResult => j.cost)).sum ≤ daily_budget + kws.length * (1/100)
    rw [List.map_map]
    have hstep : ((kws.map ((fun j : KeywordResult => j.cost) ∘ (fun k : KeywordResult => ({ k with clicks := pyInt ((k.clicks : ℚ) * (daily_budget / raws.sum)), cost := round2 (k.cost * (daily_budget / raws.sum)), conversions := pyInt ((k.conversions : ℚ) * (daily_budget / raws.sum)) } : KeywordResult)))).sum)
        ≤ (kws.map (fun k : KeywordResult => k.cost * (daily_budget / raws.sum) + 1/200)).sum := by
      apply List.sum_le_sum
      intro k _
      exact round2_le_add_half_cent _
    refine le_trans hstep ?_
    rw [List.sum_map_add]
    rw [List.sum_map_mul_right]
    rw [List.map_const', List.sum_replicate, nsmul_eq_mul]
    rw [hcost]
    have hmul := mul_le_mul_of_nonneg_right (sum_map_round2_le raws) hs0
    have hcancel : raws.sum * (daily_budget / raws.sum) = daily_budget := by
      rw [mul_comm, div_mul_cancel₀ daily_budget (ne_of_gt hS)]
    have hsc : (raws.length : ℚ) * (1/200) * (daily_budget / raws.sum) ≤ (raws.length : ℚ) * (1/200) := by
      have hnn : (0 : ℚ) ≤ (raws.length : ℚ) * (1/200) := by positivity
      nlinarith [mul_nonneg hnn (sub_nonneg.mpr hs1)]
    rw [add_mul, hcancel] at hmul
    rw [hlen]
    linarith

/-- C8 witness (Scenario C of the spec): budget $10, raw keyword costs $30
and $20 (whose stored cent-rounded costs are again $30 and $20, with
accumulated total $50 > $10): the scale factor is 10/50 = 0.2 and the
theorem applies, bounding the recomputed total by 10 plus one cent per
keyword. -/
theorem apply_budget_constraints_witness :
    (10 : ℚ) / ([(30 : ℚ), 20].sum) = 1/5 ∧
    ((∀ i : ℕ, ((apply_budget_constraints 10 [{ text := "a", clicks := 100, cost := 30, conversions := 5 }, { text := "b", clicks := 60, cost := 20, conversions := 4 }] 160 ([(30 : ℚ), 20].sum) 9).1)[i]? =
      ([{ text := "a", clicks := 100, cost := 30, conversions := 5 }, { text := "b", clicks := 60, cost := 20, conversions := 4 }] : List KeywordResult)[i]?.map (fun k => { k with
        clicks := pyInt ((k.clicks : ℚ) * ((10 : ℚ) / ([(30 : ℚ), 20].sum))),
        cost := round2 (k.cost * ((10 : ℚ) / ([(30 : ℚ), 20].sum))),
        conversions := pyInt ((k.conversions : ℚ) * ((10 : ℚ) / ([(30 : ℚ), 20].sum))) })) ∧
    (apply_budget_constraints 10 [{ text := "a", clicks := 100, cost := 30, conversions := 5 }, { text := "b", clicks := 60, cost := 20, conversions := 4 }] 160 ([(30 : ℚ), 20].sum) 9).2.2.1 ≤ 10 + ([{ text := "a", clicks := 100, cost := 30, conversions := 5 }, { text := "b", clicks := 60, cost := 20, conversions := 4 }] : List KeywordResult).length * (1/100)) := by
  constructor
  · norm_num [List.sum_cons, List.sum_nil]
  · exact apply_budget_constraints_spec 10 _ 160 9 [(30 : ℚ), 20]
      (by
        simp only [List.map_cons, List.map_nil]
        rw [show round2 (30 : ℚ) = 30 from (round2_eq_of_mul_eq_intCast (q := (30 : ℚ)) (n := 3000) (by norm_num)).trans (by norm_num), show round2 (20 : ℚ) = 20 from (round2_eq_of_mul_eq_intCast (q := (20 : ℚ)) (n := 2000) (by norm_num)).trans (by norm_num)])
      (by norm_num)
      (by norm_num [List.sum_cons, List.sum_nil])

/-! ### `app/core/enhanced_auction.py`: volume-based simulation -/

structure KeywordSpec where
  text : String
  match_type : Option String := none
  bid : ℚ
  quality_score : ℤ
deriving Repr, DecidableEq

/-- Python dict assignment `d[k] = v`, modelled on association lists: the
new binding shadows any previous one (lookup-equivalent to `dict`). -/
def dictInsert {α : Type} (k : String) (v : α) (d : List (String × α)) : List (String × α) :=
  (k, v) :: d.filter (fun p => p.1 ≠ k)

/-- The `competitor_counts` table of `_generate_competitor_ads`
(`dict.get(level, (2, 5))`). -/
def competitor_counts (level : String) : ℤ × ℤ :=
  if level = "High" then (3, 8) else if level = "Medium" then (2, 5)
  else if level = "Low" then (1, 3) else (2, 5)

/-- `_generate_competitor_ads` (the leading underscore is dropped for Lean):
reseeds the global generator from `seed`, draws a competitor count from the
competition-level range, then per competitor a bid uniform in
`[0.7·avg_cpc, 1.3·avg_cpc]` (rounded to cents) and a quality score
`randint(5, 10)`. The `geo` parameter is accepted and unused, as in the
source. -/
def generate_competitor_ads (keyword match_type : String) (_geo : String)
    (seed : ℤ) (_g : NpRandom) : List Ad × NpRandom :=
  let g0 := npSeed seed
  let competition_level := get_competition_level keyword
  let counts := competitor_counts competition_level
  let drawn := npRandint counts.1 (counts.2 + 1) g0
  let num_competitors := drawn.1
  let cpcs := get_estimated_cpc keyword match_type
  let avg_cpc := cpcs.2.1
  (List.range num_competitors.toNat).foldl
    (fun (acc : List Ad × NpRandom) i =>
      let bdraw := npUniform (avg_cpc * 0.7) (avg_cpc * 1.3) acc.2
      let qdraw := npRandint 5 10 bdraw.2
      (acc.1 ++ [{ keyword := "competitor_" ++ toString i, match_type := some match_type, bid := round2 bdraw.1, quality_score := qdraw.1 }], qdraw.2))
    ([], drawn.2)

/-- `simulate_volume_based_auctions`: reseeds from `seed`, estimates daily
auctions per keyword into a dict keyed by keyword text (later duplicates
overwrite earlier ones, as in a Python dict), and for each keyword runs
`daily_auctions` single-keyword auctions against freshly generated
competitors, keeping only the focal keyword's winning entries. The
`campaign_context` parameter is accepted and unused, as in the source; the
`getD` fallback on the dict lookup is unreachable (every key was inserted). -/
def simulate_volume_based_auctions (keywords : List KeywordSpec) (geo : String)
    (_campaign_context : Option CampaignContext) (seed : ℤ) (_g : NpRandom) :
    List Winner × NpRandom :=
  let g0 := npSeed seed
  let keyword_auction_data := keywords.foldl
    (fun (d : List (String × AuctionEstimate)) kw =>
      dictInsert kw.text (estimate_daily_auctions kw.text (kw.match_type.getD "phrase") geo) d) []
  keywords.foldl
    (fun (acc : List Winner × NpRandom) kw =>
      let auction_estimate := (keyword_auction_data.lookup kw.text).getD
        (estimate_daily_auctions kw.text (kw.match_type.getD "phrase") geo)
      (List.range auction_estimate.daily_auctions.toNat).foldl
        (fun (acc2 : List Winner × NpRandom) auction_id =>
          let focal : Ad := { keyword := kw.text, match_type := some (kw.match_type.getD "phrase"), bid := kw.bid, quality_score := kw.quality_score }
          let comp := generate_competitor_ads kw.text (kw.match_type.getD "phrase") geo (seed + auction_id) acc2.2
          let auction := run_auction (focal :: comp.1) (seed + auction_id) comp.2
          let our_results := auction.1.2.filter (fun w => w.keyword = kw.text)
          (acc2.1 ++ our_results, auction.2))
        acc)
    ([], g0)

/-- C1: `simulate_volume_based_auctions` and `_generate_competitor_ads`
reseed the global generator from their `seed` argument before any draw, so
their results are independent of the generator state two separate
invocations start from: for every fixed input, two independent runs return
identical auction-result lists (and identical competitor lists — same
count, bids, and quality scores). -/
theorem simulate_volume_based_auctions_deterministic
    (keywords : List KeywordSpec) (geo : String) (campaign_context : Option CampaignContext)
    (seed : ℤ) (g₁ g₂ : NpRandom) (keyword match_type geo2 : String) (s : ℤ) (h₁ h₂ : NpRandom) :
    (simulate_volume_based_auctions keywords geo campaign_context seed g₁).1 =
      (simulate_volume_based_auctions keywords geo campaign_context seed g₂).1 ∧
    (generate_competitor_ads keyword match_type geo2 s h₁).1 =
      (generate_competitor_ads keyword match_type geo2 s h₂).1 :=
  ⟨rfl, rfl⟩

/-! ### SHA-256

Modelled from the spec: `hashlib.sha256` (Python standard library, external
to this repository) — "hash with a cryptographic digest (SHA-256) to
produce the cache key". A full FIPS 180-4 SHA-256 over byte lists, with
32-bit words as `ℕ` reduced mod `2^32`. -/

def w32 (x : ℕ) : ℕ := x % 4294967296

/-- 32-bit rotate right (operands below `2^32`). -/
def rotr32 (n x : ℕ) : ℕ := x / 2 ^ n + x % 2 ^ n * 2 ^ (32 - n)

def shaCh (e f g : ℕ) : ℕ := (e &&& f) ^^^ ((4294967295 - e) &&& g)

def shaMaj (a b c : ℕ) : ℕ := (a &&& b) ^^^ (a &&& c) ^^^ (b &&& c)

def bigSigma0 (x : ℕ) : ℕ := rotr32 2 x ^^^ rotr32 13 x ^^^ rotr32 22 x

def bigSigma1 (x : ℕ) : ℕ := rotr32 6 x ^^^ rotr32 11 x ^^^ rotr32 25 x

def smallSigma0 (x : ℕ) : ℕ := rotr32 7 x ^^^ rotr32 18 x ^^^ x / 2 ^ 3

def smallSigma1 (x : ℕ) : ℕ := rotr32 17 x ^^^ rotr32 19 x ^^^ x / 2 ^ 10

/-- The 64 SHA-256 round constants (FIPS 180-4, in decimal). -/
def shaK : List ℕ :=
  [1116352408, 1899447441, 3049323471, 3921009573, 961987163, 1508970993,
   2453635748, 2870763221, 3624381080, 310598401, 607225278, 1426881987,
   1925078388, 2162078206, 2614888103, 3248222580, 3835390401, 4022224774,
   264347078, 604807628, 770255983, 1249150122, 1555081692, 1996064986,
   2554220882, 2821834349, 2952996808, 3210313671, 3336571891, 3584528711,
   113926993, 338241895, 666307205, 773529912, 1294757372, 1396182291,
   1695183700, 1986661051, 2177026350, 2456956037, 2730485921, 2820302411,
   3259730800, 3345764771, 3516065817, 3600352804, 4094571909, 275423344,
   430227734, 506948616, 659060556, 883997877, 958139571, 1322822218,
   1537002063, 1747873779, 1955562222, 2024104815, 2227730452, 2361852424,
   2428436474, 2756734187, 3204031479, 3329325298]

/-- Merkle–Damgård padding: append `0x80`, zeros to 56 mod 64, then the
bit length as 8 big-endian bytes. -/
def sha256pad (msg : List ℕ) : List ℕ :=
  let len := msg.length
  let r := (len + 1) % 64
  let zeros := (120 - r) % 64
  msg ++ [128] ++ List.replicate zeros 0 ++
    ((List.range 8).map (fun i => 8 * len / 2 ^ (8 * (7 - i)) % 256))

/-- A 64-byte block as 16 big-endian 32-bit words. -/
def toWords (block : List ℕ) : List ℕ :=
  (List.range 16).map (fun i =>
    block.getD (4 * i) 0 * 16777216 + block.getD (4 * i + 1) 0 * 65536 +
    block.getD (4 * i + 2) 0 * 256 + block.getD (4 * i + 3) 0)

/-- Extend 16 schedule words to 64. -/
def extendWords (ws : List ℕ) : List ℕ :=
  (List.range 48).foldl
    (fun acc _ =>
      let n := acc.length
      acc ++ [w32 (acc.getD (n - 16) 0 + smallSigma0 (acc.getD (n - 15) 0) +
        acc.getD (n - 7) 0 + smallSigma1 (acc.getD (n - 2) 0))])
    ws

structure Sha256State where
  a : ℕ
  b : ℕ
  c : ℕ
  d : ℕ
  e : ℕ
  f : ℕ
  g : ℕ
  h : ℕ
deriving Repr, DecidableEq

def sha256init : Sha256State :=
  ⟨1779033703, 3144134277, 1013904242, 2773480762, 1359893119, 2600822924, 528734635, 1541459225⟩

def compressBlock (st : Sha256State) (block : List ℕ) : Sha256State :=
  let ws := extendWords (toWords block)
  let fin := (List.range 64).foldl
    (fun (s : Sha256State) i =>
      let t1 := w32 (s.h + bigSigma1 s.e + shaCh s.e s.f s.g + shaK.getD i 0 + ws.getD i 0)
      let t2 := w32 (bigSigma0 s.a + shaMaj s.a s.b s.c)
      ⟨w32 (t1 + t2), s.a, s.b, s.c, w32 (s.d + t1), s.e, s.f, s.g⟩)
    st
  ⟨w32 (st.a + fin.a), w32 (st.b + fin.b), w32 (st.c + fin.c), w32 (st.d + fin.d),
   w32 (st.e + fin.e), w32 (st.f + fin.f), w32 (st.g + fin.g), w32 (st.h + fin.h)⟩

def sha256digest (msg : List ℕ) : Sha256State :=
  ((sha256pad msg).toChunks 64).foldl compressBlock sha256init

def hexDigitChar (n : ℕ) : Char := if n < 10 then Char.ofNat (48 + n) else Char.ofNat (87 + n)

def wordToHex (x : ℕ) : List Char := (List.range 8).map (fun i => hexDigitChar (x / 2 ^ (4 * (7 - i)) % 16))

/-- `hashlib.sha256(bytes).hexdigest()`. -/
def sha256hexOfBytes (msg : List ℕ) : String :=
  let st := sha256digest msg
  ⟨wordToHex st.a ++ wordToHex st.b ++ wordToHex st.c ++ wordToHex st.d ++
   wordToHex st.e ++ wordToHex st.f ++ wordToHex st.g ++ wordToHex st.h⟩

/-- `hashlib.sha256(s.encode('utf-8')).hexdigest()`. -/
def sha256hexOfString (s : String) : String :=
  sha256hexOfBytes (s.toUTF8.toList.map (fun b => b.toNat))

/-! ### `app/core/deterministic_cache.py`: configuration canonicalization

A JSON-like configuration value: Python dicts become key-value lists in
insertion order, with distinct keys. -/

inductive ConfigVal where
  | str (s : String)
  | num (n : ℤ)
  | bool (b : Bool)
  | null
  | arr (items : List ConfigVal)
  | obj (fields : List (String × ConfigVal))

/-- The comparator of `sorted(obj.keys())` / `json.dumps(sort_keys=True)`:
code-point order on the key strings. -/
def pairKeyLe (x y : String × ConfigVal) : Bool := decide (x.1 ≤ y.1)

mutual

/-- `DeterministicCache._sort_config_recursive`: recursively sort every
mapping's keys; lists keep their order with elements sorted recursively. -/
def sortConfigRecursive : ConfigVal → ConfigVal
  | .str s => .str s
  | .num n => .num n
  | .bool b => .bool b
  | .null => .null
  | .arr l => .arr (sortConfigList l)
  | .obj l => .obj ((sortConfigPairs l).mergeSort pairKeyLe)

def sortConfigList : List ConfigVal → List ConfigVal
  | [] => []
  | x :: xs => sortConfigRecursive x :: sortConfigList xs

def sortConfigPairs : List (String × ConfigVal) → List (String × ConfigVal)
  | [] => []
  | (k, v) :: ps => (k, sortConfigRecursive v) :: sortConfigPairs ps

end

mutual

/-- `json.dumps(x, sort_keys=True, separators=(',', ':'))` on the already
recursively sorted value (re-sorting sorted keys is the identity, so the
serializer emits fields in stored order; JSON string escaping is omitted —
it is a fixed injective character mapping applied identically to both sides
of every equation proved below). -/
def serializeConfig : ConfigVal → String
  | .str s => "\"" ++ s ++ "\""
  | .num n => toString n
  | .bool b => if b then "true" else "false"
  | .null => "null"
  | .arr l => "[" ++ serializeList l ++ "]"
  | .obj l => "\x7b" ++ serializePairs l ++ "\x7d"

def serializeList : List ConfigVal → String
  | [] => ""
  | [x] => serializeConfig x
  | x :: y :: rest => serializeConfig x ++ "," ++ serializeList (y :: rest)

def serializePairs : List (String × ConfigVal) → String
  | [] => ""
  | [(k, v)] => "\"" ++ k ++ "\":" ++ serializeConfig v
  | (k, v) :: p :: rest => "\"" ++ k ++ "\":" ++ serializeConfig v ++ "," ++ serializePairs (p :: rest)

end

/-- `DeterministicCache._generate_config_hash`: canonicalize (recursive key
sort), serialize compactly, and take the SHA-256 hex digest. -/
def generate_config_hash (config : ConfigVal) : String :=
  sha256hexOfString (serializeConfig (sortConfigRecursive config))

/-- `c₂` arises from `c₁` by permuting the key-value pairs of mappings at
any nesting depth (dict keys are distinct, hence the `Nodup` side
condition). In the `obj` rule, `mid` carries the same keys in the same
order as `p₁` with recursively permuted values, and `p₂` is a permutation
of `mid`; the pointwise value relation is encoded through the `arr`
constructor on the value lists. -/
inductive ConfigPerm : ConfigVal → ConfigVal → Prop where
  | str (s : String) : ConfigPerm (.str s) (.str s)
  | num (n : ℤ) : ConfigPerm (.num n) (.num n)
  | bool (b : Bool) : ConfigPerm (.bool b) (.bool b)
  | null : ConfigPerm .null .null
  | arr_nil : ConfigPerm (.arr []) (.arr [])
  | arr_cons {x y : ConfigVal} {xs ys : List ConfigVal} :
      ConfigPerm x y → ConfigPerm (.arr xs) (.arr ys) →
      ConfigPerm (.arr (x :: xs)) (.arr (y :: ys))
  | obj {p₁ mid p₂ : List (String × ConfigVal)} :
      p₁.map Prod.fst = mid.map Prod.fst →
      ConfigPerm (.arr (p₁.map Prod.snd)) (.arr (mid.map Prod.snd)) →
      mid.Perm p₂ →
      (p₁.map Prod.fst).Nodup →
      ConfigPerm (.obj p₁) (.obj p₂)

theorem sortConfigPairs_eq_map (l : List (String × ConfigVal)) :
    sortConfigPairs l = l.map (fun p => (p.1, sortConfigRecursive p.2)) := by
  induction l with
  | nil => rfl
  | cons p t ih => cases p; simp [sortConfigPairs, ih]

theorem sortConfigList_eq_map (l : List ConfigVal) :
    sortConfigList l = l.map sortConfigRecursive := by
  induction l with
  | nil => rfl
  | cons x t ih => simp [sortConfigList, ih]

/-- Two pair lists with equal key sequences and equal transformed value
sequences are equal after the pairwise transformation. -/
theorem map_pair_eq_of_fst_snd {l₁ l₂ : List (String × ConfigVal)}
    (h1 : l₁.map Prod.fst = l₂.map Prod.fst)
    (h2 : (l₁.map Prod.snd).map sortConfigRecursive = (l₂.map Prod.snd).map sortConfigRecursive) :
    l₁.map (fun p => (p.1, sortConfigRecursive p.2)) = l₂.map (fun p => (p.1, sortConfigRecursive p.2)) := by
  induction l₁ generalizing l₂ with
  | nil =>
    cases l₂ with
    | nil => rfl
    | cons q t => simp at h1
  | cons p t ih =>
    cases l₂ with
    | nil => simp at h1
    | cons q u =>
      simp only [List.map_cons, List.cons.injEq] at h1 h2 ⊢
      exact ⟨by rw [Prod.ext_iff]; exact ⟨h1.1, h2.1⟩, ih h1.2 h2.2⟩

/-- Two sorted pair lists that are permutations of each other with distinct
keys coincide. -/
theorem sorted_pairs_perm_eq {A B : List (String × ConfigVal)} (hperm : A.Perm B)
    (hA : A.Pairwise (fun x y => x.1 ≤ y.1)) (hB : B.Pairwise (fun x y => x.1 ≤ y.1))
    (hnd : (A.map Prod.fst).Nodup) : A = B := by
  have hndP : A.Pairwise (fun x y => x.1 ≠ y.1) := List.pairwise_map.mp hnd
  have hAlt : A.Pairwise (fun x y : String × ConfigVal => x.1 < y.1) :=
    (hA.and hndP).imp (fun h => lt_of_le_of_ne h.1 h.2)
  have hndB : (B.map Prod.fst).Nodup := ((hperm.map Prod.fst).nodup_iff).mp hnd
  have hndPB : B.Pairwise (fun x y => x.1 ≠ y.1) := List.pairwise_map.mp hndB
  have hBlt : B.Pairwise (fun x y : String × ConfigVal => x.1 < y.1) :=
    (hB.and hndPB).imp (fun h => lt_of_le_of_ne h.1 h.2)
  haveI : IsAntisymm (String × ConfigVal) (fun x y => x.1 < y.1) :=
    ⟨fun a b h1 h2 => absurd h2 (lt_asymm h1)⟩
  exact List.eq_of_perm_of_sorted hperm hAlt hBlt

/-- Sorting a key-permuted pair list with distinct keys yields the same
sorted list. -/
theorem mergeSort_pairs_perm_eq {A B : List (String × ConfigVal)} (hperm : A.Perm B)
    (hnd : (A.map Prod.fst).Nodup) :
    A.mergeSort pairKeyLe = B.mergeSort pairKeyLe := by
  have htrans : ∀ x y z : String × ConfigVal, pairKeyLe x y = true → pairKeyLe y z = true →
      pairKeyLe x z = true := by
    intro x y z hxy hyz
    simp only [pairKeyLe, decide_eq_true_eq] at *
    exact le_trans hxy hyz
  have htotal : ∀ x y : String × ConfigVal, (pairKeyLe x y || pairKeyLe y x) = true := by
    intro x y
    simp only [pairKeyLe, Bool.or_eq_true, decide_eq_true_eq]
    exact le_total _ _
  have hpermAB : (A.mergeSort pairKeyLe).Perm (B.mergeSort pairKeyLe) :=
    ((List.mergeSort_perm A pairKeyLe).trans hperm).trans (List.mergeSort_perm B pairKeyLe).symm
  have hndA : ((A.mergeSort pairKeyLe).map Prod.fst).Nodup :=
    (((List.mergeSort_perm A pairKeyLe).map Prod.fst).nodup_iff).mpr hnd
  apply sorted_pairs_perm_eq hpermAB
  · exact (List.sorted_mergeSort htrans htotal A).imp
      (fun h => by simpa [pairKeyLe] using h)
  · exact (List.sorted_mergeSort htrans htotal B).imp
      (fun h => by simpa [pairKeyLe] using h)
  · exact hndA

/-- Canonicalization is invariant under key permutation at every depth. -/
theorem configPerm_sort_eq {c₁ c₂ : ConfigVal} (h : ConfigPerm c₁ c₂) :
    sortConfigRecursive c₁ = sortConfigRecursive c₂ := by
  induction h with
  | str s => rfl
  | num n => rfl
  | bool b => rfl
  | null => rfl
  | arr_nil => rfl
  | arr_cons hx hxs ihx ihxs =>
    simp only [sortConfigRecursive, sortConfigList] at ihxs ⊢
    rw [ihx]
    rw [(ConfigVal.arr.injEq _ _).mp ihxs]
  | obj hkeys hvals hperm hnd ihvals =>
    rename_i p₁ mid p₂
    simp only [sortConfigRecursive] at ihvals ⊢
    have hvals' : (p₁.map Prod.snd).map sortConfigRecursive = (mid.map Prod.snd).map sortConfigRecursive := by
      have := (ConfigVal.arr.injEq _ _).mp ihvals
      rw [← sortConfigList_eq_map, ← sortConfigList_eq_map]
      exact this
    have h1 : sortConfigPairs p₁ = sortConfigPairs mid := by
      rw [sortConfigPairs_eq_map, sortConfigPairs_eq_map]
      exact map_pair_eq_of_fst_snd hkeys hvals'
    have h2 : (sortConfigPairs mid).Perm (sortConfigPairs p₂) := by
      rw [sortConfigPairs_eq_map, sortConfigPairs_eq_map]
      exact hperm.map _
    have hnd1 : ((sortConfigPairs p₁).map Prod.fst).Nodup := by
      rw [sortConfigPairs_eq_map]
      have : (p₁.map (fun p => (p.1, sortConfigRecursive p.2))).map Prod.fst = p₁.map Prod.fst := by
        rw [List.map_map]
        rfl
      rw [this]
      exact hnd
    congr 1
    rw [h1]
    exact mergeSort_pairs_perm_eq h2 (h1 ▸ hnd1)

/-- C2: `_generate_config_hash` returns the same SHA-256 cache key for any
reordering of the keys of `config` or of any nested mapping inside it. -/
theorem generate_config_hash_perm_invariant {c₁ c₂ : ConfigVal}
    (h : ConfigPerm c₁ c₂) : generate_config_hash c₁ = generate_config_hash c₂ := by
  unfold generate_config_hash
  rw [configPerm_sort_eq h]

/-- C2 witness: a two-key configuration with a nested two-key mapping,
reordered at both depths, hashes identically. -/
theorem generate_config_hash_perm_invariant_witness :
    ConfigPerm
      (.obj [("b", .num 1), ("a", .obj [("y", .str "v"), ("x", .null)])])
      (.obj [("a", .obj [("x", .null), ("y", .str "v")]), ("b", .num 1)]) ∧
    generate_config_hash (.obj [("b", .num 1), ("a", .obj [("y", .str "v"), ("x", .null)])]) =
      generate_config_hash (.obj [("a", .obj [("x", .null), ("y", .str "v")]), ("b", .num 1)]) := by
  have hinner : ConfigPerm (.obj [("y", .str "v"), ("x", .null)]) (.obj [("x", .null), ("y", .str "v")]) := by
    apply @ConfigPerm.obj [("y", ConfigVal.str "v"), ("x", ConfigVal.null)] [("y", ConfigVal.str "v"), ("x", ConfigVal.null)] [("x", ConfigVal.null), ("y", ConfigVal.str "v")]
    · rfl
    · exact ConfigPerm.arr_cons (ConfigPerm.str "v") (ConfigPerm.arr_cons ConfigPerm.null ConfigPerm.arr_nil)
    · exact List.Perm.swap _ _ _
    · decide
  have houter : ConfigPerm
      (.obj [("b", .num 1), ("a", .obj [("y", .str "v"), ("x", .null)])])
      (.obj [("a", .obj [("x", .null), ("y", .str "v")]), ("b", .num 1)]) := by
    apply @ConfigPerm.obj [("b", ConfigVal.num 1), ("a", ConfigVal.obj [("y", ConfigVal.str "v"), ("x", ConfigVal.null)])] [("b", ConfigVal.num 1), ("a", ConfigVal.obj [("x", ConfigVal.null), ("y", ConfigVal.str "v")])] [("a", ConfigVal.obj [("x", ConfigVal.null), ("y", ConfigVal.str "v")]), ("b", ConfigVal.num 1)]
    · rfl
    · exact ConfigPerm.arr_cons (ConfigPerm.num 1) (ConfigPerm.arr_cons hinner ConfigPerm.arr_nil)
    · exact List.Perm.swap _ _ _
    · decide
  exact ⟨houter, generate_config_hash_perm_invariant houter⟩

/-! ### `app/core/deterministic_cache.py`: the two-tier cache

Time is seconds as `ℤ` (each `datetime.now()` call in `get`/`set` is the
call's `now` argument; `timedelta(hours=ttl)` is `ttl * 3600`). The memory
dict and the on-disk `.pkl` files are association lists keyed by the hex
cache key. Exception paths (corrupt pickle, disk write failure) are not
reachable in the embedding. -/

structure CacheEntryL (α : Type) where
  key : String
  data : α
  created_at : ℤ
  expires_at : Option ℤ := none
  hit_count : ℕ := 0
  last_accessed : Option ℤ := none

structure CacheState (α : Type) where
  memory_cache : List (String × CacheEntryL α)
  disk_cache : List (String × CacheEntryL α)
  ttl_hours : ℤ
  hits : ℕ
  misses : ℕ
  evictions : ℕ
  total_requests : ℕ

/-- Python `del d[k]` / `cache_file.unlink()`. -/
def dictRemove {α : Type} (k : String) (d : List (String × α)) : List (String × α) :=
  d.filter (fun p => p.1 ≠ k)

/-- `DeterministicCache._is_expired`: `datetime.now() > expires_at`. -/
def is_expired {α : Type} (now : ℤ) (e : CacheEntryL α) : Bool :=
  match e.expires_at with
  | none => false
  | some t => decide (t < now)

/-- The persistent-tier half of `get`: consult the `.pkl` file, load an
unexpired entry back into memory (with its hit metadata updated, since the
loaded object is mutated after insertion), unlink an expired file, or miss. -/
def cache_get_disk {α : Type} (st : CacheState α) (cache_key : String) (now : ℤ) :
    Option α × CacheState α :=
  match st.disk_cache.lookup cache_key with
  | some entry =>
    if is_expired now entry then
      (none, { st with disk_cache := dictRemove cache_key st.disk_cache, evictions := st.evictions + 1, misses := st.misses + 1 })
    else
      let entry2 := { entry with hit_count := entry.hit_count + 1, last_accessed := some now }
      (some entry.data, { st with memory_cache := dictInsert cache_key entry2 st.memory_cache, hits := st.hits + 1 })
  | none => (none, { st with misses := st.misses + 1 })

/-- `DeterministicCache.get`. -/
def cache_get {α : Type} (st : CacheState α) (config : ConfigVal) (now : ℤ) :
    Option α × CacheState α :=
  let st1 : CacheState α := { st with total_requests := st.total_requests + 1 }
  let cache_key := generate_config_hash config
  match st1.memory_cache.lookup cache_key with
  | some entry =>
    if is_expired now entry then
      cache_get_disk { st1 with memory_cache := dictRemove cache_key st1.memory_cache, evictions := st1.evictions + 1 } cache_key now
    else
      let entry2 := { entry with hit_count := entry.hit_count + 1, last_accessed := some now }
      (some entry.data, { st1 with memory_cache := dictInsert cache_key entry2 st1.memory_cache, hits := st1.hits + 1 })
  | none => cache_get_disk st1 cache_key now

/-- Python's `custom_ttl_hours or self.ttl_hours` (a `None` or zero custom
TTL falls back to the default). -/
def ttlOf (custom_ttl_hours : Option ℤ) (dflt : ℤ) : ℤ :=
  match custom_ttl_hours with
  | none => dflt
  | some c => if c = 0 then dflt else c

/-- `DeterministicCache.set`. -/
def cache_set {α : Type} (st : CacheState α) (config : ConfigVal) (data : α)
    (custom_ttl_hours : Option ℤ) (now : ℤ) : String × CacheState α :=
  let cache_key := generate_config_hash config
  let ttl := ttlOf custom_ttl_hours st.ttl_hours
  let expires_at := now + ttl * 3600
  let entry : CacheEntryL α := { key := cache_key, data := data, created_at := now, expires_at := some expires_at, hit_count := 0, last_accessed := some now }
  (cache_key, { st with memory_cache := dictInsert cache_key entry st.memory_cache, disk_cache := dictInsert cache_key entry st.disk_cache })

theorem dictInsert_lookup_self {α : Type} (k : String) (v : α) (d : List (String × α)) :
    (dictInsert k v d).lookup k = some v := by
  simp [dictInsert, List.lookup]

theorem dictRemove_lookup_self {α : Type} (k : String) (d : List (String × α)) :
    (dictRemove k d).lookup k = none := by
  induction d with
  | nil => rfl
  | cons p t ih =>
    by_cases h : p.1 = k
    · simpa [dictRemove, List.filter, h] using ih
    · simpa [dictRemove, List.filter, h, List.lookup, beq_eq_false_iff_ne.mpr (Ne.symm h)] using ih

/-- C7: a `get` at or before the entry's expiry returns exactly the stored
payload; a `get` after expiry misses and evicts the entry from both the
memory and disk tiers. -/
theorem cache_get_after_set {α : Type} (st : CacheState α) (config : ConfigVal)
    (R : α) (custom : Option ℤ) (t_set t_get : ℤ) :
    (t_get ≤ t_set + ttlOf custom st.ttl_hours * 3600 →
      (cache_get (cache_set st config R custom t_set).2 config t_get).1 = some R) ∧
    (t_set + ttlOf custom st.ttl_hours * 3600 < t_get →
      (cache_get (cache_set st config R custom t_set).2 config t_get).1 = none ∧
      ((cache_get (cache_set st config R custom t_set).2 config t_get).2.memory_cache.lookup (generate_config_hash config) = none) ∧
      ((cache_get (cache_set st config R custom t_set).2 config t_get).2.disk_cache.lookup (generate_config_hash config) = none)) := by
  have hmem : ((cache_set st config R custom t_set).2.memory_cache).lookup (generate_config_hash config)
      = some { key := generate_config_hash config, data := R, created_at := t_set, expires_at := some (t_set + ttlOf custom st.ttl_hours * 3600), hit_count := 0, last_accessed := some t_set } := by
    unfold cache_set
    exact dictInsert_lookup_self _ _ _
  have hdisk : ((cache_set st config R custom t_set).2.disk_cache).lookup (generate_config_hash config)
      = some { key := generate_config_hash config, data := R, created_at := t_set, expires_at := some (t_set + ttlOf custom st.ttl_hours * 3600), hit_count := 0, last_accessed := some t_set } := by
    unfold cache_set
    exact dictInsert_lookup_self _ _ _
  constructor
  · intro hle
    unfold cache_get
    dsimp only
    rw [hmem]
    dsimp only
    rw [show is_expired t_get { key := generate_config_hash config, data := R, created_at := t_set, expires_at := some (t_set + ttlOf custom st.ttl_hours * 3600), hit_count := 0, last_accessed := some t_set } = false from by simp [is_expired]; omega]
    simp
  · intro hgt
    unfold cache_get
    dsimp only
    rw [hmem]
    dsimp only
    rw [show is_expired t_get { key := generate_config_hash config, data := R, created_at := t_set, expires_at := some (t_set + ttlOf custom st.ttl_hours * 3600), hit_count := 0, last_accessed := some t_set } = true from by simp [is_expired]; omega]
    simp only [if_pos rfl]
    unfold cache_get_disk
    dsimp only
    rw [hdisk]
    dsimp only
    rw [show is_expired t_get { key := generate_config_hash config, data := R, created_at := t_set, expires_at := some (t_set + ttlOf custom st.ttl_hours * 3600), hit_count := 0, last_accessed := some t_set } = true from by simp [is_expired]; omega]
    simp only [if_pos rfl]
    refine ⟨rfl, ?_, ?_⟩
    · exact dictRemove_lookup_self _ _
    · show (dictRemove (generate_config_hash config) (cache_set st config R custom t_set).2.disk_cache).lookup (generate_config_hash config) = none
      exact dictRemove_lookup_self _ _

/-- C7 witness: a fresh 24-hour cache; a read 100 seconds after the write
returns the payload, and a read 100000 seconds (> 24h) after the write
misses with both tiers cleared of the key. -/
theorem cache_get_after_set_witness :
    (cache_get (cache_set (⟨[], [], 24, 0, 0, 0, 0⟩ : CacheState ℕ) (.obj [("seed", .num 1)]) 42 none 0).2 (.obj [("seed", .num 1)]) 100).1 = some 42 ∧
    (cache_get (cache_set (⟨[], [], 24, 0, 0, 0, 0⟩ : CacheState ℕ) (.obj [("seed", .num 1)]) 42 none 0).2 (.obj [("seed", .num 1)]) 100000).1 = none := by
  have h1 := cache_get_after_set (⟨[], [], 24, 0, 0, 0, 0⟩ : CacheState ℕ) (.obj [("seed", .num 1)]) 42 none 0 100
  have h2 := cache_get_after_set (⟨[], [], 24, 0, 0, 0, 0⟩ : CacheState ℕ) (.obj [("seed", .num 1)]) 42 none 0 100000
  exact ⟨h1.1 (by decide), (h2.2 (by decide)).1⟩

end GAdsSim
